import Mathlib

/-! minisentinel: the SentinelInfo codec, the auth gate, the SENTINEL command
and the lifecycle of the service.

A shallow embedding of `sentinel.go`, `pingCmd.go` and `sentinelCmds.go`.

* Go strings are Lean `String`s (string equality is equality of contents).
* The Unicode case tables behind `strings.ToUpper` and `strings.ToLower` are a
  parameter (`CaseTables`); ASCII runes are mapped as Go maps them.
* A Go function that can fault at run time (index out of range) returns an
  `Option`; `none` is the fault.
* Reflection over a struct (`reflect.TypeOf(m).Field(i)`, `reflect.ValueOf(&m)
  .Elem().Field(i)`) is a tag table and a getter/setter indexed by the field
  number, in declaration order.
-/

namespace Minisentinel

/-! ## sentinel.go: SentinelInfo -/

/-- SentinelInfo - define a redis sentinel (`sentinel.go`, 14 string fields). -/
structure SentinelInfo where
  Name : String := ""
  IP : String := ""
  Port : String := ""
  RunID : String := ""
  Flags : String := ""
  LinkPendingCommands : String := ""
  LinkRefCount : String := ""
  LastPingSent : String := ""
  LastOkPingReply : String := ""
  LastPingReply : String := ""
  DownAfterMilliseconds : String := ""
  LastHelloMessage : String := ""
  VotedLeader : String := ""
  VotedLeaderEpoch : String := ""
  deriving DecidableEq, Repr

namespace SentinelInfo

/-- The number of fields: `reflect.TypeOf(SentinelInfo{}).NumField()`. -/
def NumField : Nat := 14

/-- The `mapstructure` tag of field `i`: `t.Field(i).Tag.Get("mapstructure")`. -/
def tag : Fin NumField → String
  | ⟨0, _⟩ => "name"
  | ⟨1, _⟩ => "ip"
  | ⟨2, _⟩ => "port"
  | ⟨3, _⟩ => "runid"
  | ⟨4, _⟩ => "flags"
  | ⟨5, _⟩ => "link-pending-commands"
  | ⟨6, _⟩ => "link-refcount"
  | ⟨7, _⟩ => "last-ping-sent"
  | ⟨8, _⟩ => "last-ok-ping-reply"
  | ⟨9, _⟩ => "last-ping-reply"
  | ⟨10, _⟩ => "down-after-milliseconds"
  | ⟨11, _⟩ => "last-hello-message"
  | ⟨12, _⟩ => "voted-leader"
  | ⟨13, _⟩ => "voted-leader-epoch"
  | ⟨n + 14, h⟩ => absurd h (by simp [NumField])

/-- The value of field `i`: `v.Field(i).Interface().(string)`. -/
def field (m : SentinelInfo) : Fin NumField → String
  | ⟨0, _⟩ => m.Name
  | ⟨1, _⟩ => m.IP
  | ⟨2, _⟩ => m.Port
  | ⟨3, _⟩ => m.RunID
  | ⟨4, _⟩ => m.Flags
  | ⟨5, _⟩ => m.LinkPendingCommands
  | ⟨6, _⟩ => m.LinkRefCount
  | ⟨7, _⟩ => m.LastPingSent
  | ⟨8, _⟩ => m.LastOkPingReply
  | ⟨9, _⟩ => m.LastPingReply
  | ⟨10, _⟩ => m.DownAfterMilliseconds
  | ⟨11, _⟩ => m.LastHelloMessage
  | ⟨12, _⟩ => m.VotedLeader
  | ⟨13, _⟩ => m.VotedLeaderEpoch
  | ⟨n + 14, h⟩ => absurd h (by simp [NumField])

/-- Assignment to field `i`: `v.Elem().Field(i).SetString(x)`. -/
def SetString (m : SentinelInfo) : Fin NumField → String → SentinelInfo
  | ⟨0, _⟩, x => { m with Name := x }
  | ⟨1, _⟩, x => { m with IP := x }
  | ⟨2, _⟩, x => { m with Port := x }
  | ⟨3, _⟩, x => { m with RunID := x }
  | ⟨4, _⟩, x => { m with Flags := x }
  | ⟨5, _⟩, x => { m with LinkPendingCommands := x }
  | ⟨6, _⟩, x => { m with LinkRefCount := x }
  | ⟨7, _⟩, x => { m with LastPingSent := x }
  | ⟨8, _⟩, x => { m with LastOkPingReply := x }
  | ⟨9, _⟩, x => { m with LastPingReply := x }
  | ⟨10, _⟩, x => { m with DownAfterMilliseconds := x }
  | ⟨11, _⟩, x => { m with LastHelloMessage := x }
  | ⟨12, _⟩, x => { m with VotedLeader := x }
  | ⟨13, _⟩, x => { m with VotedLeaderEpoch := x }
  | ⟨n + 14, h⟩, _ => absurd h (by simp [NumField])

end SentinelInfo

/-- The inner loop of `NewSentinelInfoFromStrings` for field `i` with tag
`tag`: `for si, sv := range s`, here over the elements not yet visited
(`rest`, the next index being `si`). Odd indices are skipped; at the first
even index whose element equals the tag the guarded read `s[si+1]` is stored
into field `i` and the loop breaks. `none` is an index out of range. -/
def scanTag (s : List String) (tag : String) (i : Fin SentinelInfo.NumField)
    (m : SentinelInfo) : List String → Nat → Option SentinelInfo
  | [], _ => some m
  | sv :: rest, si =>
    if si % 2 ≠ 0 then scanTag s tag i m rest (si + 1)
    else if sv = tag then
      if s.length ≥ si + 1 then
        match s[si + 1]? with
        | some x => some (m.SetString i x)
        | none => none
      else some m
    else scanTag s tag i m rest (si + 1)

/-- NewSentinelInfoFromStrings creates a new SentinelInfo (`sentinel.go`).
The result is the pair `(m, err)` the Go function returns, `err = none` being
`nil`; the outer `none` is a run-time fault. -/
def NewSentinelInfoFromStrings (s : List String) :
    Option (SentinelInfo × Option String) :=
  let m : SentinelInfo := {}
  if s.length % 2 ≠ 0 then
    some (m, some "[]strings not a modulus of 2")
  else
    match (List.finRange SentinelInfo.NumField).foldlM
        (fun m i => scanTag s (SentinelInfo.tag i) i m s 0) m with
    | some m => some (m, none)
    | none => none

/-- The bulk strings the loop of `sentinelsCommand` writes for a record: for
each field in declaration order, the tag and then the value. -/
def SentinelInfo.flat (r : SentinelInfo) : List String :=
  (List.finRange SentinelInfo.NumField).foldr
    (fun i acc => SentinelInfo.tag i :: r.field i :: acc) []

/-! ## The transport and the service state -/

/-- The case tables of Go's `unicode` package for the runes above `MaxASCII`:
`upper r` is `unicode.To(unicode.UpperCase, r)` and `lower r` is
`unicode.To(unicode.LowerCase, r)`. The tables are data of the Go library and
not of this repository; every definition and theorem below holds for whatever
they contain. -/
class CaseTables where
  upper : Char → Char
  lower : Char → Char

/-- The rune mapping `unicode.ToLower`: an ASCII rune is mapped by arithmetic
(`A`-`Z` to `a`-`z`, every other ASCII rune to itself), a rune above
`MaxASCII` through the case tables. -/
def unicode.ToLower [CaseTables] (r : Char) : Char :=
  if r.toNat ≤ 127 then r.toLower else CaseTables.lower r

/-- The rune mapping `unicode.ToUpper`: an ASCII rune is mapped by arithmetic
(`a`-`z` to `A`-`Z`, every other ASCII rune to itself), a rune above
`MaxASCII` through the case tables. -/
def unicode.ToUpper [CaseTables] (r : Char) : Char :=
  if r.toNat ≤ 127 then r.toUpper else CaseTables.upper r

/-- The case mapping `strings.ToLower`: `unicode.ToLower` applied to every
rune of the string. -/
def strings.ToLower [CaseTables] (s : String) : String :=
  String.mk (s.data.map unicode.ToLower)

/-- The case mapping `strings.ToUpper`: `unicode.ToUpper` applied to every
rune of the string. -/
def strings.ToUpper [CaseTables] (s : String) : String :=
  String.mk (s.data.map unicode.ToUpper)

/-- Case tables that map every rune above `MaxASCII` to itself, for the
examples; the examples are over ASCII strings, for which no table is
consulted. -/
def exampleTables : CaseTables := { upper := id, lower := id }

/-- The decimal text of an integer: `strconv.Itoa`. -/
def strconv.Itoa (n : Int) : String := toString n

/-- A reply written through one of the transport's primitives
(`server.Peer`): `WriteError`, `WriteInline`, `WriteOK`, `WriteLen`,
`WriteBulk`. -/
inductive Reply where
  | error (msg : String)
  | inline (s : String)
  | ok
  | len (n : Int)
  | bulk (s : String)
  deriving DecidableEq, Repr

/-- connCtx has all state for a single connection. -/
structure connCtx where
  authenticated : Bool := false
  deriving DecidableEq, Repr

/-- The connection as the handlers see it (`server.Peer`): the context box
`Ctx`, `none` being Go's `nil`, and the replies written so far, oldest first. -/
structure Peer where
  Ctx : Option connCtx := none
  out : List Reply := []
  deriving DecidableEq, Repr

namespace Peer

def WriteError (c : Peer) (msg : String) : Peer := { c with out := c.out ++ [Reply.error msg] }

def WriteInline (c : Peer) (s : String) : Peer := { c with out := c.out ++ [Reply.inline s] }

def WriteOK (c : Peer) : Peer := { c with out := c.out ++ [Reply.ok] }

def WriteLen (c : Peer) (n : Int) : Peer := { c with out := c.out ++ [Reply.len n] }

def WriteBulk (c : Peer) (s : String) : Peer := { c with out := c.out ++ [Reply.bulk s] }

end Peer

/-- The backing store behind master and replica (`miniredis.Miniredis`), as
far as the service reads it: its `Host()` and `Port()`. -/
structure Miniredis where
  Host : String
  Port : String
  deriving DecidableEq, Repr

/-- The listener (`server.Server`), as far as the service reads it: the IP and
port of `Addr()`. -/
structure Server where
  IP : String
  Port : Int
  deriving DecidableEq, Repr

/-- Modelled from the spec: the MasterInfo record, whose declaration
(`master.go`) is not among the sources. It is kept as the field `Name`, which
`getMasterAddrByNameCommand` reads, and its reflection view `fields`: the
(tag, value) pair of every field, in declaration order. -/
structure MasterInfo where
  Name : String
  fields : List (String × String)
  deriving DecidableEq, Repr

/-- Modelled from the spec: the ReplicaInfo record, whose declaration
(`replica.go`) is not among the sources; of the same shape as `MasterInfo`. -/
structure ReplicaInfo where
  Name : String
  fields : List (String × String)
  deriving DecidableEq, Repr

/-- Modelled from the spec: the options record `GetOpts` returns (`options.go`
is not among the sources), as far as `initSentinelInfo` and `NewSentinel` read
it: the master name and the optional master and replica stores (`none` is
`nil`). -/
structure Options where
  masterName : String
  master : Option Miniredis := none
  replica : Option Miniredis := none
  deriving DecidableEq, Repr

/-- Modelled from the spec: `GetOpts()` called without options; the default
master name is `mymaster`. -/
def GetOpts : Options := { masterName := "mymaster" }

/-- The functions `initSentinelCmdHandler` stores in the `cmdHandler` map. -/
inductive SubHandler where
  | mastersCommand
  | getMasterAddrByNameCommand
  | slavesCommand
  | sentinelsCommand
  deriving DecidableEq, Repr

/-- Sentinel - a redis sentinel server implementation (`sentinel.go`). The
mutex and the condition variable are left out: the model is sequential. The
pointers `srv` and `replica` may be `nil` (`none`); the master is taken to be
a store, since the handlers dereference it. -/
structure Sentinel where
  srv : Option Server
  port : Int
  password : String
  masterInfo : MasterInfo
  master : Miniredis
  replicaInfo : ReplicaInfo
  replica : Option Miniredis
  sentinelInfo : SentinelInfo
  cmdHandler : List (String × SubHandler)
  deriving DecidableEq, Repr

def errWrongNumber [CaseTables] (cmd : String) : String :=
  "ERR wrong number of arguments for '" ++ strings.ToLower cmd ++ "' command"

/-- The format `msgInvalidSentinelCommand`, applied to its one argument. -/
def msgInvalidSentinelCommand (name : String) : String :=
  "ERR unknown command '" ++ name ++ "'"

/-- The map literal of `initSentinelCmdHandler`. -/
def initSentinelCmdHandler (s : Sentinel) : Sentinel :=
  { s with cmdHandler :=
      [("MASTERS", SubHandler.mastersCommand),
       ("GET-MASTER-ADDR-BY-NAME", SubHandler.getMasterAddrByNameCommand),
       ("SLAVES", SubHandler.slavesCommand),
       ("SENTINELS", SubHandler.sentinelsCommand)] }

/-- RequireAuth makes every connection need to AUTH first. -/
def RequireAuth (s : Sentinel) (pw : String) : Sentinel := { s with password := pw }

/-- The context of a connection, created on first use: `getCtx`. Returns the
context and the connection, whose box is now filled. -/
def getCtx (c : Peer) : connCtx × Peer :=
  match c.Ctx with
  | none => ({}, { c with Ctx := some {} })
  | some x => (x, c)

def setAuthenticated (c : Peer) : Peer :=
  let (x, c) := getCtx c
  { c with Ctx := some { x with authenticated := true } }

/-- The flag a handler reads for a connection: `getCtx(c).authenticated`. -/
def Peer.authenticated (c : Peer) : Bool := (getCtx c).1.authenticated

/-- handleAuth returns false if connection has no access. It sends the reply. -/
def handleAuth (s : Sentinel) (c : Peer) : Bool × Peer :=
  if s.password = "" then (true, c)
  else
    let (x, c) := getCtx c
    if !x.authenticated then (false, c.WriteError "NOAUTH Authentication required.")
    else (true, c)

/-! ## pingCmd.go -/

/-- cmdPing: the arity check, then the auth gate, then `PONG`. Returns the
service and the connection after the call. -/
def cmdPing [CaseTables] (s : Sentinel) (c : Peer) (cmd : String) (args : List String) : Sentinel × Peer :=
  if args.length ≠ 0 then (s, c.WriteError (errWrongNumber cmd))
  else
    let (ok, c) := handleAuth s c
    if !ok then (s, c)
    else (s, c.WriteInline "PONG")

/-- cmdAuth. `len(args) != 1` is the case of an `args` that is not of the form
`[pw]`; with one argument, `pw := args[0]`. -/
def cmdAuth [CaseTables] (s : Sentinel) (c : Peer) (cmd : String) (args : List String) : Sentinel × Peer :=
  match args with
  | [pw] =>
    if s.password = "" then (s, c.WriteError "ERR Client sent AUTH, but no password is set")
    else if s.password ≠ pw then (s, c.WriteError "ERR invalid password")
    else (s, (setAuthenticated c).WriteOK)
  | _ => (s, c.WriteError (errWrongNumber cmd))

/-! ## sentinelCmds.go -/

def isSentinelCmd [CaseTables] (cmd : String) : Bool :=
  if strings.ToUpper cmd ≠ "SENTINEL" then false else true

/-- initSentinelInfo: the stored sentinel record is assigned anew and
returned. `o` is `GetOpts(opts...)` and `runID` the text of the fresh
`uuid.New()`. -/
def initSentinelInfo (s : Sentinel) (o : Options) (runID : String) :
    Sentinel × SentinelInfo :=
  let info : SentinelInfo :=
    { Name := "sentinel-" ++ o.masterName
      IP := s.master.Host
      Port := strconv.Itoa s.port
      RunID := runID
      Flags := "sentinel"
      LinkPendingCommands := "0"
      LinkRefCount := "1"
      LastPingSent := "0"
      LastOkPingReply := "0"
      LastPingReply := "0"
      DownAfterMilliseconds := "5000"
      LastHelloMessage := "0"
      VotedLeader := "?"
      VotedLeaderEpoch := "0" }
  ({ s with sentinelInfo := info }, info)

/-- The getter `SentinelInfo(opts...)`: it calls `initSentinelInfo`. -/
def Sentinel.SentinelInfo (s : Sentinel) (o : Options) (runID : String) :
    Sentinel × SentinelInfo :=
  initSentinelInfo s o runID

/-- The reflection loop of `mastersCommand` and `slavesCommand`: for every
field in declaration order, `WriteBulk(tag)` then `WriteBulk(value)`. -/
def writeFields (c : Peer) (fields : List (String × String)) : Peer :=
  fields.foldl (fun c f => (c.WriteBulk f.1).WriteBulk f.2) c

/-- The reflection loop of `sentinelsCommand` over the SentinelInfo fields. -/
def writeSentinelFields (c : Peer) (info : SentinelInfo) : Peer :=
  (List.finRange SentinelInfo.NumField).foldl
    (fun c i => (c.WriteBulk (SentinelInfo.tag i)).WriteBulk (info.field i)) c

/-- getMasterAddrByNameCommand. The result is the service, the connection and
the returned `error` (`none` is `nil`); the outer `none` is an index out of
range. -/
def getMasterAddrByNameCommand [CaseTables] (s : Sentinel) (c : Peer) (cmd : String)
    (args : List String) : Option (Sentinel × Peer × Option String) :=
  if !isSentinelCmd cmd then some (s, c, some (msgInvalidSentinelCommand cmd))
  else
    match args[0]? with
    | none => none
    | some a0 =>
      let subCmd := strings.ToUpper a0
      if subCmd ≠ "GET-MASTER-ADDR-BY-NAME" then
        some (s, c, some (msgInvalidSentinelCommand subCmd))
      else
        match args[1]? with
        | none => none
        | some a1 =>
          if strings.ToUpper s.masterInfo.Name ≠ strings.ToUpper a1 then
            some (s, c.WriteLen (-1), none)
          else
            some (s, ((c.WriteLen 2).WriteBulk s.master.Host).WriteBulk s.master.Port, none)

def slavesCommand [CaseTables] (s : Sentinel) (c : Peer) (cmd : String)
    (args : List String) : Option (Sentinel × Peer × Option String) :=
  if !isSentinelCmd cmd then some (s, c, some (msgInvalidSentinelCommand cmd))
  else
    match args[0]? with
    | none => none
    | some a0 =>
      let subCmd := strings.ToUpper a0
      if subCmd ≠ "SLAVES" then some (s, c, some (msgInvalidSentinelCommand subCmd))
      else some (s, writeFields ((c.WriteLen 1).WriteLen 40) s.replicaInfo.fields, none)

def mastersCommand [CaseTables] (s : Sentinel) (c : Peer) (cmd : String)
    (args : List String) : Option (Sentinel × Peer × Option String) :=
  if !isSentinelCmd cmd then some (s, c, some (msgInvalidSentinelCommand cmd))
  else
    match args[0]? with
    | none => none
    | some a0 =>
      let subCmd := strings.ToUpper a0
      if subCmd ≠ "MASTERS" then some (s, c, some (msgInvalidSentinelCommand subCmd))
      else some (s, writeFields ((c.WriteLen 1).WriteLen 40) s.masterInfo.fields, none)

/-- sentinelsCommand. `runID` is the fresh identifier the call of
`s.SentinelInfo()` draws. -/
def sentinelsCommand [CaseTables] (s : Sentinel) (c : Peer) (cmd : String)
    (args : List String) (runID : String) : Option (Sentinel × Peer × Option String) :=
  if !isSentinelCmd cmd then some (s, c, some (msgInvalidSentinelCommand cmd))
  else
    match args[0]? with
    | none => none
    | some a0 =>
      let subCmd := strings.ToUpper a0
      if subCmd ≠ "SENTINELS" then some (s, c, some (msgInvalidSentinelCommand subCmd))
      else
        let (s, sentinelInfo) := s.SentinelInfo GetOpts runID
        let c := (c.WriteLen 1).WriteLen (SentinelInfo.NumField : Nat)
        some (s, writeSentinelFields c sentinelInfo, none)

/-- The call `cmdFn(c, cmd, args)` of a function stored in `cmdHandler`. -/
def callHandler [CaseTables] (f : SubHandler) (s : Sentinel) (c : Peer) (cmd : String)
    (args : List String) (runID : String) : Option (Sentinel × Peer × Option String) :=
  match f with
  | .mastersCommand => mastersCommand s c cmd args
  | .getMasterAddrByNameCommand => getMasterAddrByNameCommand s c cmd args
  | .slavesCommand => slavesCommand s c cmd args
  | .sentinelsCommand => sentinelsCommand s c cmd args runID

/-- cmdsSentinel - entry point for all commands that start with SENTINEL.
`none` is an index out of range; `runID` is the identifier a call of
`s.SentinelInfo()` would draw. -/
def cmdsSentinel [CaseTables] (s : Sentinel) (c : Peer) (cmd : String) (args : List String)
    (runID : String) : Option (Sentinel × Peer) :=
  if !isSentinelCmd cmd then some (s, c.WriteError (msgInvalidSentinelCommand cmd))
  else if args.length > 2 then some (s, c.WriteError (errWrongNumber cmd))
  else
    let (ok, c) := handleAuth s c
    if !ok then some (s, c)
    else
      match args[0]? with
      | none => none
      | some a0 =>
        let subCmd := strings.ToUpper a0
        match s.cmdHandler.lookup subCmd with
        | none => some (s, c.WriteError (msgInvalidSentinelCommand subCmd))
        | some cmdFn =>
          match callHandler cmdFn s c cmd args runID with
          | none => none
          | some (s, c, some err) => some (s, c.WriteError err)
          | some (s, c, none) => some (s, c)

/-! ## sentinel.go: construction and lifecycle -/

/-- NewSentinel makes a new, non-started object. `o` is `GetOpts(opts...)` and
`runID` the identifier the call of `s.SentinelInfo(opts...)` draws; `mi` and
`ri` are the records `s.MasterInfo(opts...)` and `s.ReplicaInfo(opts...)`
store (`initMasterInfo` and `initReplicaInfo` are not among the sources). -/
def NewSentinel (master : Miniredis) (o : Options) (mi : MasterInfo) (ri : ReplicaInfo)
    (runID : String) : Sentinel :=
  let s : Sentinel :=
    { srv := none
      port := 0
      password := ""
      masterInfo := mi
      master := master
      replicaInfo := ri
      replica := o.master
      sentinelInfo := {}
      cmdHandler := [] }
  let s := if o.replica ≠ none then { s with replica := o.replica } else s
  let s := (s.SentinelInfo o runID).1
  initSentinelCmdHandler s

/-- The unexported `start`: the listener and its port are stored. The
registration of the handlers with the transport changes nothing in the
service. -/
def start (s : Sentinel) (srv : Server) : Sentinel :=
  { s with srv := some srv, port := srv.Port }

/-- Start starts a server. `r` is what `server.NewServer` returns for the
address `127.0.0.1:<s.port>`: a listener or an error. The result is the
service and the returned `error`. -/
def Start (s : Sentinel) (r : Except String Server) : Sentinel × Option String :=
  match r with
  | .error err => (s, some err)
  | .ok srv => (start s srv, none)

/-- Restart restarts a Close()d server on the same port. Values will be
preserved. -/
def Restart (s : Sentinel) (r : Except String Server) : Sentinel × Option String :=
  Start s r

/-- Close shuts down a Sentinel. The shutdown of the listener itself
(`srv.Close()`) happens in the transport. -/
def Close (s : Sentinel) : Sentinel :=
  match s.srv with
  | none => s
  | some _ => { s with srv := none }

/-- Port returns the (random) port part of Addr(); `none` is the fault of a
`nil` listener. -/
def Sentinel.Port (s : Sentinel) : Option String :=
  match s.srv with
  | none => none
  | some srv => some (strconv.Itoa srv.Port)

/-! ## Steps of one connection against the service -/

/-- What can happen to a service and one of its connections: a command of the
connection reaches its handler, or the harness calls `RequireAuth`. -/
inductive Step where
  | ping (cmd : String) (args : List String)
  | auth (cmd : String) (args : List String)
  | sentinel (cmd : String) (args : List String) (runID : String)
  | requireAuth (pw : String)
  deriving DecidableEq, Repr

/-- The service and the connection after a step; `none` when the handler
faults. -/
def Step.exec [CaseTables] : Step → Sentinel × Peer → Option (Sentinel × Peer)
  | .ping cmd args, (s, c) => some (cmdPing s c cmd args)
  | .auth cmd args, (s, c) => some (cmdAuth s c cmd args)
  | .sentinel cmd args runID, (s, c) => cmdsSentinel s c cmd args runID
  | .requireAuth pw, (s, c) => some (RequireAuth s pw, c)

/-- A service constructed with the default options over a master store at
`127.0.0.1:6379` and started on port 26379, for examples. -/
def startedSentinel : Sentinel :=
  (Start
    (NewSentinel { Host := "127.0.0.1", Port := "6379" } GetOpts
      { Name := "mymaster", fields := [("name", "mymaster")] }
      { Name := "mymaster", fields := [("name", "mymaster")] } "run-0")
    (.ok { IP := "127.0.0.1", Port := 26379 })).1

/-- A service with the given password and a fixed topology, for examples. -/
def exampleSentinel (pw : String) : Sentinel :=
  initSentinelCmdHandler
    { srv := some { IP := "127.0.0.1", Port := 26379 }
      port := 26379
      password := pw
      masterInfo := { Name := "mymaster", fields := [("name", "mymaster")] }
      master := { Host := "127.0.0.1", Port := "6379" }
      replicaInfo := { Name := "mymaster", fields := [("name", "mymaster")] }
      replica := some { Host := "127.0.0.1", Port := "6379" }
      sentinelInfo := {}
      cmdHandler := [] }

/-! ### Reference functions for the codec -/

/-- The value that follows the first whole key/value pair of `s` whose key is
`t`, if there is one. -/
def firstVal : List String → String → Option String
  | k :: v :: rest, t => if k = t then some v else firstVal rest t
  | _, _ => none

/-- The flat sequence `k₀, v₀, k₁, v₁, …` of a list of (key, value) pairs. -/
def flatPairs : List (String × String) → List String
  | [] => []
  | (k, v) :: ps => k :: v :: flatPairs ps

/-- The (key, value) pairs of a flat sequence (a trailing single element is
dropped). -/
def toPairs : List String → List (String × String)
  | k :: v :: rest => (k, v) :: toPairs rest
  | _ => []

/-- What one pass of the outer loop of `NewSentinelInfoFromStrings` stores:
field `i` receives the value of the first pair of `s` keyed by its tag. -/
def storeField (s : List String) (m : SentinelInfo) (i : Fin SentinelInfo.NumField) :
    SentinelInfo :=
  match firstVal s (SentinelInfo.tag i) with
  | some x => m.SetString i x
  | none => m

/-- The record the outer loop builds from the zero record. -/
def decodeFields (s : List String) : SentinelInfo :=
  (List.finRange SentinelInfo.NumField).foldl (storeField s) {}

/-! ### Reference functions for the replies -/

/-- The bulk strings of a list of (tag, value) fields: tag, value, tag, value, … -/
def fieldReplies : List (String × String) → List Reply
  | [] => []
  | (t, v) :: fs => Reply.bulk t :: Reply.bulk v :: fieldReplies fs

/-- The map `initSentinelCmdHandler` builds. -/
def stdHandlers : List (String × SubHandler) :=
  [("MASTERS", SubHandler.mastersCommand),
   ("GET-MASTER-ADDR-BY-NAME", SubHandler.getMasterAddrByNameCommand),
   ("SLAVES", SubHandler.slavesCommand),
   ("SENTINELS", SubHandler.sentinelsCommand)]

/-- A reply is an error reply. -/
def Reply.isError : Reply → Bool
  | .error _ => true
  | _ => false

/-- What a function of the `cmdHandler` map may leave behind when it returns:
replies appended to those of the connection, none of them an error reply, and
either no error or an unknown-command message. -/
def handlerOutcome (c c' : Peer) (err : Option String) : Prop :=
  (∃ new, c'.out = c.out ++ new ∧ ∀ r ∈ new, r.isError = false) ∧
  (∀ e, err = some e → ∃ x, e = msgInvalidSentinelCommand x)

/-- The index the inner loop of `NewSentinelInfoFromStrings` reads for a tag,
if it reads one: the same loop as `scanTag`, returning `si + 1` where `scanTag`
evaluates `s[si+1]`. -/
def scanTagRead (s : List String) (tag : String) : List String → Nat → Option Nat
  | [], _ => none
  | sv :: rest, si =>
    if si % 2 ≠ 0 then scanTagRead s tag rest (si + 1)
    else if sv = tag then
      if s.length ≥ si + 1 then some (si + 1) else none
    else scanTagRead s tag rest (si + 1)

/-! ## Theorems: the codec -/

theorem flatPairs_toPairs : ∀ (s : List String), s.length % 2 = 0 →
    flatPairs (toPairs s) = s
  | [], _ => rfl
  | [_], h => by simp at h
  | k :: v :: rest, h => by
    have h2 : rest.length % 2 = 0 := by
      simp only [List.length_cons] at h; omega
    simp [toPairs, flatPairs, flatPairs_toPairs rest h2]

theorem length_flatPairs (ps : List (String × String)) :
    (flatPairs ps).length = 2 * ps.length := by
  induction ps with
  | nil => rfl
  | cons p ps ih => obtain ⟨k, v⟩ := p; simp [flatPairs, ih]; omega

theorem firstVal_flatPairs (ps : List (String × String)) (t : String) :
    firstVal (flatPairs ps) t = (ps.find? (fun p => p.1 = t)).map Prod.snd := by
  induction ps with
  | nil => rfl
  | cons p ps ih =>
    obtain ⟨k, v⟩ := p
    by_cases h : k = t <;> simp [flatPairs, firstVal, h, ih, List.find?]

/-- The inner loop, started at an even index `pre.length` with an even number
of elements left, never faults and stores exactly `firstVal` of what is left. -/
theorem scanTag_eq (tag : String) (i : Fin SentinelInfo.NumField) (m : SentinelInfo) :
    ∀ (n : Nat) (rest pre : List String), rest.length = 2 * n → pre.length % 2 = 0 →
      scanTag (pre ++ rest) tag i m rest pre.length =
        some (match firstVal rest tag with
              | some x => m.SetString i x
              | none => m) := by
  intro n
  induction n with
  | zero =>
    intro rest pre hr _
    have : rest = [] := List.length_eq_zero.mp (by omega)
    subst this
    simp [scanTag, firstVal]
  | succ n ih =>
    intro rest pre hr hp
    match rest, hr with
    | k :: v :: rest', hr =>
      have hr' : rest'.length = 2 * n := by
        simp only [List.length_cons] at hr; omega
      by_cases hk : k = tag
      · subst hk
        have hget : (pre ++ k :: v :: rest')[pre.length + 1]? = some v := by
          rw [List.getElem?_append_right (by omega)]
          simp
        obtain ⟨_, hv⟩ := List.getElem?_eq_some.mp hget
        simp [scanTag, firstVal, hp, hv]
      · have hodd : (pre.length + 1) % 2 = 1 := by omega
        have hpre : (pre ++ [k, v]).length = pre.length + 1 + 1 := by simp
        have hpre2 : (pre ++ [k, v]).length % 2 = 0 := by rw [hpre]; omega
        have := ih rest' (pre ++ [k, v]) hr' hpre2
        rw [hpre] at this
        simp only [List.append_assoc, List.cons_append, List.nil_append] at this
        simp [scanTag, firstVal, hp, hk, hodd, this]

theorem field_SetString (m : SentinelInfo) (i k : Fin SentinelInfo.NumField) (x : String) :
    (m.SetString i x).field k = if k = i then x else m.field k := by
  fin_cases i <;> fin_cases k <;> rfl

theorem SentinelInfo.ext_field {m m' : SentinelInfo}
    (h : ∀ k : Fin SentinelInfo.NumField, m.field k = m'.field k) : m = m' := by
  cases m; cases m'
  simp only [SentinelInfo.mk.injEq]
  exact ⟨h ⟨0, by decide⟩, h ⟨1, by decide⟩, h ⟨2, by decide⟩, h ⟨3, by decide⟩,
    h ⟨4, by decide⟩, h ⟨5, by decide⟩, h ⟨6, by decide⟩, h ⟨7, by decide⟩,
    h ⟨8, by decide⟩, h ⟨9, by decide⟩, h ⟨10, by decide⟩, h ⟨11, by decide⟩,
    h ⟨12, by decide⟩, h ⟨13, by decide⟩⟩

theorem field_storeField (s : List String) (m : SentinelInfo)
    (i k : Fin SentinelInfo.NumField) :
    (storeField s m i).field k =
      if k = i then (firstVal s (SentinelInfo.tag i)).getD (m.field k) else m.field k := by
  unfold storeField
  cases firstVal s (SentinelInfo.tag i) with
  | none => by_cases h : k = i <;> simp [h]
  | some x => by_cases h : k = i <;> simp [h, field_SetString]

theorem field_foldl_storeField (s : List String) :
    ∀ (l : List (Fin SentinelInfo.NumField)) (m : SentinelInfo), l.Nodup →
      ∀ k, (l.foldl (storeField s) m).field k =
        if k ∈ l then (firstVal s (SentinelInfo.tag k)).getD (m.field k) else m.field k := by
  intro l
  induction l with
  | nil => intro m _ k; simp
  | cons i l ih =>
    intro m hnd k
    have hi : i ∉ l := (List.nodup_cons.mp hnd).1
    rw [List.foldl_cons, ih _ (List.nodup_cons.mp hnd).2 k, field_storeField]
    by_cases hk : k = i
    · subst hk; simp [hi]
    · by_cases hl : k ∈ l <;> simp [hk, hl]

theorem field_decodeFields (s : List String) (k : Fin SentinelInfo.NumField) :
    (decodeFields s).field k = (firstVal s (SentinelInfo.tag k)).getD "" := by
  unfold decodeFields
  rw [field_foldl_storeField s _ _ (List.nodup_finRange _) k]
  simp only [List.mem_finRange, if_true]
  fin_cases k <;> rfl

theorem foldlM_scanTag (s : List String) (hs : s.length % 2 = 0) :
    ∀ (l : List (Fin SentinelInfo.NumField)) (m : SentinelInfo),
      l.foldlM (fun m i => scanTag s (SentinelInfo.tag i) i m s 0) m =
        some (l.foldl (storeField s) m) := by
  intro l
  induction l with
  | nil => intro m; rfl
  | cons i l ih =>
    intro m
    have h := scanTag_eq (SentinelInfo.tag i) i m (s.length / 2) s [] (by omega) rfl
    simp only [List.nil_append, List.length_nil] at h
    simp only [List.foldlM_cons, h, List.foldl_cons]
    exact ih _

/-- On even-length input the decoder returns, without error and without a
fault, the record `decodeFields` describes. -/
theorem NewSentinelInfoFromStrings_even (s : List String) (hs : s.length % 2 = 0) :
    NewSentinelInfoFromStrings s = some (decodeFields s, none) := by
  unfold NewSentinelInfoFromStrings
  simp only [hs, ne_eq, not_true_eq_false, if_false, foldlM_scanTag s hs]
  rfl

/-- On odd-length input the decoder returns the zero record and the error. -/
theorem NewSentinelInfoFromStrings_odd (s : List String) (hs : s.length % 2 = 1) :
    NewSentinelInfoFromStrings s = some ({}, some "[]strings not a modulus of 2") := by
  unfold NewSentinelInfoFromStrings
  simp [hs]

theorem firstVal_flat (r : SentinelInfo) (k : Fin SentinelInfo.NumField) :
    firstVal r.flat (SentinelInfo.tag k) = some (r.field k) := by
  fin_cases k <;> rfl

theorem firstVal_eq_none : ∀ (s : List String) (t : String),
    (∀ i, i % 2 = 0 → s[i]? ≠ some t) → firstVal s t = none
  | [], _, _ => rfl
  | [_], _, _ => rfl
  | k :: v :: rest, t, h => by
    have hk : k ≠ t := by simpa using h 0 rfl
    simp only [firstVal, hk, if_false]
    apply firstVal_eq_none rest t
    intro i hi
    simpa using h (i + 2) (by omega)

theorem firstVal_of_first : ∀ (s : List String) (t : String) (i : Nat),
    s.length % 2 = 0 → i % 2 = 0 → s[i]? = some t →
    (∀ j, j < i → j % 2 = 0 → s[j]? ≠ some t) →
    ∃ v, s[i + 1]? = some v ∧ firstVal s t = some v
  | [], _, _, _, _, h, _ => by simp at h
  | [_], _, _, hs, _, _, _ => by simp at hs
  | k :: v :: rest, t, 0, _, _, h, _ => by
    have hk : k = t := by simpa using h
    exact ⟨v, by simp, by simp [firstVal, hk]⟩
  | _ :: _ :: _, _, 1, _, hi, _, _ => by simp at hi
  | k :: v :: rest, t, i + 2, hs, hi, h, hfirst => by
    have hk : k ≠ t := by simpa using hfirst 0 (by omega) rfl
    have hs' : rest.length % 2 = 0 := by
      simp only [List.length_cons] at hs; omega
    have h' : rest[i]? = some t := by simpa using h
    obtain ⟨x, hx, hf⟩ := firstVal_of_first rest t i hs' (by omega) h'
      (fun j hj hj2 => by simpa using hfirst (j + 2) (by omega) (by omega))
    exact ⟨x, by simpa using hx, by simp [firstVal, hk, hf]⟩

theorem length_filter_key_le_one (t : String) :
    ∀ (ps : List (String × String)), (ps.map Prod.fst).Nodup →
      (ps.filter (fun p => decide (p.1 = t))).length ≤ 1
  | [], _ => by simp
  | (k, v) :: ps, h => by
    rw [List.map_cons, List.nodup_cons] at h
    have ih := length_filter_key_le_one t ps h.2
    by_cases hk : k = t
    · subst hk
      have hnone : ps.filter (fun p => decide (p.1 = k)) = [] := by
        rw [List.filter_eq_nil_iff]
        intro p hp hpk
        exact h.1 (List.mem_map.mpr ⟨p, hp, by simpa using hpk⟩)
      simp [List.filter_cons, hnone]
    · simp [List.filter_cons, hk, ih]

theorem find?_key_perm (t : String) (ps ps' extras : List (String × String))
    (hnd : (ps.map Prod.fst).Nodup) (hex : ∀ e ∈ extras, e.1 ≠ t)
    (hperm : ps'.Perm (ps ++ extras)) :
    ps'.find? (fun p => decide (p.1 = t)) = ps.find? (fun p => decide (p.1 = t)) := by
  have hfil : (ps'.filter (fun p => decide (p.1 = t))).Perm
      (ps.filter (fun p => decide (p.1 = t))) := by
    have h := hperm.filter (fun p => decide (p.1 = t))
    have hnone : extras.filter (fun p => decide (p.1 = t)) = [] := by
      rw [List.filter_eq_nil_iff]
      intro p hp hpk
      exact hex p hp (by simpa using hpk)
    rwa [List.filter_append, hnone, List.append_nil] at h
  have hle := length_filter_key_le_one t ps hnd
  have heq : ps'.filter (fun p => decide (p.1 = t)) = ps.filter (fun p => decide (p.1 = t)) := by
    generalize ps.filter (fun p => decide (p.1 = t)) = l at hfil hle
    match l, hle with
    | [], _ => exact hfil.eq_nil
    | [a], _ => exact List.perm_singleton.mp hfil
    | _ :: _ :: _, hle => simp at hle
  rw [← List.filter_head?, ← List.filter_head?, heq]

theorem field_zero (k : Fin SentinelInfo.NumField) : ({} : SentinelInfo).field k = "" := by
  fin_cases k <;> rfl

/-- A single pair whose key is none of the declared tags sets no field. -/
theorem NewSentinelInfoFromStrings_unknown_key (key v : String)
    (h : ∀ k, key ≠ SentinelInfo.tag k) :
    NewSentinelInfoFromStrings [key, v] = some ({}, none) := by
  rw [NewSentinelInfoFromStrings_even [key, v] (by simp)]
  have : decodeFields [key, v] = {} :=
    SentinelInfo.ext_field (fun k => by
      rw [field_decodeFields, field_zero]; simp [firstVal, h k])
  rw [this]

/-! ### The codec claims -/

/-- C1. Round trip for SentinelInfo: for every record `r`, the flat sequence
`r.flat` is the 28 strings tag₀, field₀, tag₁, field₁, … in declaration order,
and `NewSentinelInfoFromStrings r.flat` returns `(r, nil)`, whatever the field
values are (also when a value is itself a tag name). -/
theorem NewSentinelInfoFromStrings_flat (r : SentinelInfo) :
    r.flat =
      ["name", r.Name, "ip", r.IP, "port", r.Port, "runid", r.RunID,
       "flags", r.Flags, "link-pending-commands", r.LinkPendingCommands,
       "link-refcount", r.LinkRefCount, "last-ping-sent", r.LastPingSent,
       "last-ok-ping-reply", r.LastOkPingReply, "last-ping-reply", r.LastPingReply,
       "down-after-milliseconds", r.DownAfterMilliseconds,
       "last-hello-message", r.LastHelloMessage, "voted-leader", r.VotedLeader,
       "voted-leader-epoch", r.VotedLeaderEpoch] ∧
    NewSentinelInfoFromStrings r.flat = some (r, none) := by
  refine ⟨rfl, ?_⟩
  have hlen : r.flat.length = 28 := rfl
  rw [NewSentinelInfoFromStrings_even r.flat (by rw [hlen])]
  have : decodeFields r.flat = r :=
    SentinelInfo.ext_field (fun k => by rw [field_decodeFields, firstVal_flat]; rfl)
  rw [this]

/-- C2. `NewSentinelInfoFromStrings` fails exactly on odd-length input: it
always returns a pair `(m, err)`, `err` is non-nil if and only if the length of
the input is odd, and with a non-nil error the record is the zero record, every
field the empty string. -/
theorem NewSentinelInfoFromStrings_error_iff (s : List String) :
    ∃ m err, NewSentinelInfoFromStrings s = some (m, err) ∧
      (err ≠ none ↔ s.length % 2 = 1) ∧
      (err ≠ none → m = {} ∧ ∀ k, m.field k = "") := by
  rcases Nat.mod_two_eq_zero_or_one s.length with h | h
  · exact ⟨decodeFields s, none, NewSentinelInfoFromStrings_even s h, by simp [h], by simp⟩
  · refine ⟨{}, some "[]strings not a modulus of 2", NewSentinelInfoFromStrings_odd s h,
      by simp [h], fun _ => ⟨rfl, field_zero⟩⟩

/-- C3. Partial decode: for every even-length `s` the decoder returns a record
and no error; a field whose tag occurs at no even index of `s` is the empty
string, and a field whose tag occurs at an even index `i`, `i` the first such
index, equals `s[i+1]`. -/
theorem NewSentinelInfoFromStrings_partial (s : List String) (hs : s.length % 2 = 0) :
    ∃ m, NewSentinelInfoFromStrings s = some (m, none) ∧
      ∀ k : Fin SentinelInfo.NumField,
        ((∀ i, i % 2 = 0 → s[i]? ≠ some (SentinelInfo.tag k)) → m.field k = "") ∧
        (∀ i, i % 2 = 0 → s[i]? = some (SentinelInfo.tag k) →
          (∀ j, j < i → j % 2 = 0 → s[j]? ≠ some (SentinelInfo.tag k)) →
          s[i + 1]? = some (m.field k)) := by
  refine ⟨decodeFields s, NewSentinelInfoFromStrings_even s hs, fun k => ⟨?_, ?_⟩⟩
  · intro h
    rw [field_decodeFields, firstVal_eq_none s _ h]
    rfl
  · intro i hi h hfirst
    obtain ⟨v, hv, hf⟩ := firstVal_of_first s _ i hs hi h hfirst
    rw [field_decodeFields, hf, hv]
    rfl

/-- The witness of C3: the two-pair input `ip, 1.2.3.4, name, x`. -/
theorem NewSentinelInfoFromStrings_partial_witness :
    ∃ m, NewSentinelInfoFromStrings ["ip", "1.2.3.4", "name", "x"] = some (m, none) ∧
      ∀ k : Fin SentinelInfo.NumField,
        ((∀ i, i % 2 = 0 →
            ["ip", "1.2.3.4", "name", "x"][i]? ≠ some (SentinelInfo.tag k)) →
          m.field k = "") ∧
        (∀ i, i % 2 = 0 → ["ip", "1.2.3.4", "name", "x"][i]? = some (SentinelInfo.tag k) →
          (∀ j, j < i → j % 2 = 0 →
            ["ip", "1.2.3.4", "name", "x"][j]? ≠ some (SentinelInfo.tag k)) →
          ["ip", "1.2.3.4", "name", "x"][i + 1]? = some (m.field k)) :=
  NewSentinelInfoFromStrings_partial ["ip", "1.2.3.4", "name", "x"] (by decide)

/-- C4. Decode ignores pair order and unknown tags: when `s` has even length
and pairwise distinct keys, and the pairs of the even-length `s'` are a
permutation of the pairs of `s` together with extra pairs whose keys are none
of the 14 declared tags, decoding `s'` gives what decoding `s` gives. Tag
matching is exact: the keys `Name` and `NAME` set no field. -/
theorem NewSentinelInfoFromStrings_perm (s s' : List String)
    (extras : List (String × String))
    (hs : s.length % 2 = 0) (hs' : s'.length % 2 = 0)
    (hnd : ((toPairs s).map Prod.fst).Nodup)
    (hex : ∀ e ∈ extras, ∀ k, e.1 ≠ SentinelInfo.tag k)
    (hperm : (toPairs s').Perm (toPairs s ++ extras)) :
    NewSentinelInfoFromStrings s' = NewSentinelInfoFromStrings s ∧
    (∀ v, NewSentinelInfoFromStrings ["Name", v] = some ({}, none)) ∧
    (∀ v, NewSentinelInfoFromStrings ["NAME", v] = some ({}, none)) := by
  refine ⟨?_, fun v => NewSentinelInfoFromStrings_unknown_key "Name" v (by decide),
    fun v => NewSentinelInfoFromStrings_unknown_key "NAME" v (by decide)⟩
  rw [NewSentinelInfoFromStrings_even s hs, NewSentinelInfoFromStrings_even s' hs']
  have : decodeFields s' = decodeFields s := by
    apply SentinelInfo.ext_field
    intro k
    rw [field_decodeFields, field_decodeFields]
    conv_lhs => rw [← flatPairs_toPairs s' hs']
    conv_rhs => rw [← flatPairs_toPairs s hs]
    rw [firstVal_flatPairs, firstVal_flatPairs,
      find?_key_perm _ (toPairs s) (toPairs s') extras hnd (fun e he => hex e he k) hperm]
  rw [this]

/-- The witness of C4: `name, a, ip, b` against the same pairs swapped, with
an unknown pair `Name, z` in between. -/
theorem NewSentinelInfoFromStrings_perm_witness :
    NewSentinelInfoFromStrings ["ip", "b", "Name", "z", "name", "a"] =
      NewSentinelInfoFromStrings ["name", "a", "ip", "b"] ∧
    (∀ v, NewSentinelInfoFromStrings ["Name", v] = some ({}, none)) ∧
    (∀ v, NewSentinelInfoFromStrings ["NAME", v] = some ({}, none)) :=
  NewSentinelInfoFromStrings_perm ["name", "a", "ip", "b"]
    ["ip", "b", "Name", "z", "name", "a"] [("Name", "z")]
    (by decide) (by decide) (by decide)
    (by intro e he k; fin_cases k <;> simp_all [SentinelInfo.tag])
    (by decide)

/-! ## Theorems: the auth gate, PING and AUTH -/

@[simp] theorem Peer.authenticated_WriteError (c : Peer) (m : String) :
    (c.WriteError m).authenticated = c.authenticated := by
  obtain ⟨x, o⟩ := c; cases x <;> rfl

@[simp] theorem Peer.authenticated_WriteInline (c : Peer) (m : String) :
    (c.WriteInline m).authenticated = c.authenticated := by
  obtain ⟨x, o⟩ := c; cases x <;> rfl

@[simp] theorem Peer.authenticated_WriteOK (c : Peer) :
    c.WriteOK.authenticated = c.authenticated := by
  obtain ⟨x, o⟩ := c; cases x <;> rfl

@[simp] theorem Peer.authenticated_WriteLen (c : Peer) (n : Int) :
    (c.WriteLen n).authenticated = c.authenticated := by
  obtain ⟨x, o⟩ := c; cases x <;> rfl

@[simp] theorem Peer.authenticated_WriteBulk (c : Peer) (m : String) :
    (c.WriteBulk m).authenticated = c.authenticated := by
  obtain ⟨x, o⟩ := c; cases x <;> rfl

/-- Filling the context box does not change the flag, nor the replies. -/
theorem getCtx_snd (c : Peer) :
    (getCtx c).2.authenticated = c.authenticated ∧ (getCtx c).2.out = c.out := by
  obtain ⟨x, o⟩ := c
  cases x <;> exact ⟨rfl, rfl⟩

theorem setAuthenticated_spec (c : Peer) :
    (setAuthenticated c).authenticated = true ∧ (setAuthenticated c).out = c.out := by
  obtain ⟨x, o⟩ := c
  cases x <;> exact ⟨rfl, rfl⟩

/-- The gate: it passes exactly when no password is set or the connection is
authenticated; it writes `NOAUTH` exactly when it does not pass; it leaves the
flag as it is. -/
theorem handleAuth_spec (s : Sentinel) (c : Peer) :
    (handleAuth s c).1 = (decide (s.password = "") || c.authenticated) ∧
    (handleAuth s c).2.authenticated = c.authenticated ∧
    (handleAuth s c).2.out =
      if (handleAuth s c).1 then c.out
      else c.out ++ [Reply.error "NOAUTH Authentication required."] := by
  unfold handleAuth
  by_cases hp : s.password = ""
  · simp [hp]
  · obtain ⟨x, o⟩ := c
    cases x with
    | none => simp [hp, getCtx, Peer.authenticated, Peer.WriteError]
    | some x =>
      cases hx : x.authenticated <;>
        simp [hp, hx, getCtx, Peer.authenticated, Peer.WriteError]

/-- The wrong-arity message never is the `NOAUTH` message. -/
theorem errWrongNumber_ne_noauth [CaseTables] (cmd : String) :
    errWrongNumber cmd ≠ "NOAUTH Authentication required." := by
  intro h
  have := congrArg String.data h
  simp [errWrongNumber, String.data_append] at this

/-- When no password is set or the connection is authenticated, the gate
passes and touches nothing. -/
theorem handleAuth_pass (s : Sentinel) (c : Peer)
    (h : s.password = "" ∨ c.authenticated = true) : handleAuth s c = (true, c) := by
  unfold handleAuth
  by_cases hp : s.password = ""
  · simp [hp]
  · have ha : c.authenticated = true := h.resolve_left hp
    obtain ⟨x, o⟩ := c
    cases x with
    | none => cases ha
    | some x =>
      have hx : x.authenticated = true := ha
      simp [hp, getCtx, hx]

/-- With a password set and the connection not authenticated, the gate
refuses and writes `NOAUTH`. -/
theorem handleAuth_fail (s : Sentinel) (c : Peer)
    (hp : s.password ≠ "") (ha : c.authenticated = false) :
    handleAuth s c = (false, (getCtx c).2.WriteError "NOAUTH Authentication required.") := by
  have hx : (getCtx c).1.authenticated = false := ha
  unfold handleAuth
  simp [hp, hx]

theorem cmdPing_pass [CaseTables] (s : Sentinel) (c : Peer) (cmd : String)
    (h : s.password = "" ∨ c.authenticated = true) :
    cmdPing s c cmd [] = (s, c.WriteInline "PONG") := by
  simp [cmdPing, handleAuth_pass s c h]

theorem cmdPing_fail [CaseTables] (s : Sentinel) (c : Peer) (cmd : String)
    (hp : s.password ≠ "") (ha : c.authenticated = false) :
    cmdPing s c cmd [] = (s, (getCtx c).2.WriteError "NOAUTH Authentication required.") := by
  simp [cmdPing, handleAuth_fail s c hp ha]

/-- C5. Auth gate on PING: with zero arguments, for every service (every
password) and every connection, `cmdPing` writes exactly one reply: the inline
`PONG` when the password is empty or the connection is authenticated, and the
error `NOAUTH Authentication required.` otherwise. The flag of the connection
and the service, its password included, stay as they were. -/
theorem cmdPing_no_args [CaseTables] (s : Sentinel) (c : Peer) (cmd : String) :
    (cmdPing s c cmd []).2.out =
      c.out ++ [if s.password = "" ∨ c.authenticated = true then Reply.inline "PONG"
                else Reply.error "NOAUTH Authentication required."] ∧
    (cmdPing s c cmd []).2.authenticated = c.authenticated ∧
    (cmdPing s c cmd []).1.password = s.password ∧
    (cmdPing s c cmd []).1 = s := by
  by_cases h : s.password = "" ∨ c.authenticated = true
  · rw [cmdPing_pass s c cmd h]
    refine ⟨?_, ?_, rfl, rfl⟩
    · simp [h, Peer.WriteInline]
    · simp
  · have hp : s.password ≠ "" := fun hp => h (Or.inl hp)
    have ha : c.authenticated = false := by
      cases hc : c.authenticated
      · rfl
      · exact absurd (Or.inr hc) h
    rw [cmdPing_fail s c cmd hp ha]
    refine ⟨?_, ?_, rfl, rfl⟩
    · simp [h, Peer.WriteError, (getCtx_snd c).2]
    · simp [(getCtx_snd c).1]

/-- C6. PING arity: with a non-empty argument list, whatever the password and
the state of the connection, `cmdPing` writes exactly one reply, the error
`ERR wrong number of arguments for '<cmd lower-cased>' command` (for `PING`:
`… for 'ping' command`); that reply is neither `PONG` nor `NOAUTH`. -/
theorem cmdPing_wrong_arity [CaseTables] (s : Sentinel) (c : Peer) (cmd : String) (args : List String)
    (hargs : args ≠ []) :
    (cmdPing s c cmd args).2.out = c.out ++ [Reply.error (errWrongNumber cmd)] ∧
    errWrongNumber cmd =
      "ERR wrong number of arguments for '" ++ strings.ToLower cmd ++ "' command" ∧
    errWrongNumber "PING" = "ERR wrong number of arguments for 'ping' command" ∧
    Reply.error (errWrongNumber cmd) ≠ Reply.inline "PONG" ∧
    Reply.error (errWrongNumber cmd) ≠ Reply.error "NOAUTH Authentication required." := by
  have hlen : args.length ≠ 0 := fun h => hargs (List.length_eq_zero.mp h)
  refine ⟨?_, rfl, by rfl, by simp, ?_⟩
  · simp [cmdPing, hlen, Peer.WriteError]
  · intro h
    exact errWrongNumber_ne_noauth cmd (Reply.error.inj h)

/-- The witness of C6: `PING x` on a fresh connection of a service with the
password `secret`. -/
theorem cmdPing_wrong_arity_witness :
    letI := exampleTables
    (cmdPing (exampleSentinel "secret") {} "PING" ["x"]).2.out =
      [Reply.error "ERR wrong number of arguments for 'ping' command"] :=
  letI := exampleTables
  (cmdPing_wrong_arity (exampleSentinel "secret") {} "PING" ["x"] (by decide)).1.trans
    (by decide)

/-- C7. AUTH with a wrong password: when the service password is not empty and
`p` differs from it, `AUTH p` replies with exactly the error
`ERR invalid password` and leaves the flag of the connection as it was (so a
fresh connection stays unauthenticated); `AUTH <password>` right after it, on
the same connection, replies `OK`. -/
theorem cmdAuth_wrong_password [CaseTables] (s : Sentinel) (c : Peer) (cmd cmd' p : String)
    (hpw : s.password ≠ "") (hp : p ≠ s.password) :
    (cmdAuth s c cmd [p]).2.out = c.out ++ [Reply.error "ERR invalid password"] ∧
    (cmdAuth s c cmd [p]).2.authenticated = c.authenticated ∧
    (c = {} → (cmdAuth s c cmd [p]).2.authenticated = false) ∧
    (cmdAuth s c cmd [p]).1 = s ∧
    (cmdAuth (cmdAuth s c cmd [p]).1 (cmdAuth s c cmd [p]).2 cmd' [s.password]).2.out =
      c.out ++ [Reply.error "ERR invalid password", Reply.ok] := by
  have hne : ¬ s.password = p := fun h => hp h.symm
  have h1 : cmdAuth s c cmd [p] = (s, c.WriteError "ERR invalid password") := by
    simp [cmdAuth, hpw, hne]
  rw [h1]
  refine ⟨rfl, by simp, ?_, rfl, ?_⟩
  · intro hc; subst hc; rfl
  · simp [cmdAuth, hpw, Peer.WriteOK, (setAuthenticated_spec _).2, Peer.WriteError]

/-- The witness of C7: `AUTH wrong` then `AUTH secret` on a fresh connection
of a service with the password `secret`. -/
theorem cmdAuth_wrong_password_witness :
    letI := exampleTables
    (cmdAuth (exampleSentinel "secret") {} "AUTH" ["wrong"]).2.out =
      [Reply.error "ERR invalid password"] ∧
    (cmdAuth (exampleSentinel "secret") {} "AUTH" ["wrong"]).2.authenticated = false :=
  letI := exampleTables
  have h := cmdAuth_wrong_password (exampleSentinel "secret") {} "AUTH" "AUTH" "wrong"
    (by decide) (by decide)
  ⟨h.1, h.2.2.1 rfl⟩

/-- AUTH with one argument sets the flag exactly when the argument is the
non-empty service password (or the flag was set already). -/
theorem cmdAuth_authenticated [CaseTables] (s : Sentinel) (c : Peer) (cmd p : String) :
    (cmdAuth s c cmd [p]).2.authenticated =
      (c.authenticated || decide (s.password ≠ "" ∧ p = s.password)) := by
  by_cases hpw : s.password = ""
  · simp [cmdAuth, hpw]
  · by_cases hp : s.password = p
    · subst hp
      simp [cmdAuth, hpw, (setAuthenticated_spec c).1]
    · have hp' : ¬ p = s.password := fun h => hp h.symm
      simp [cmdAuth, hpw, hp, hp']

/-- C8. AUTH with the correct password: when the service password is not empty
and the connection is not authenticated, the commands PING, AUTH <password>,
PING write exactly `NOAUTH Authentication required.`, `OK`, `PONG`, and the
connection is authenticated after the AUTH. The comparison is equality of
strings: on an unauthenticated connection `AUTH p` authenticates only if `p` is
the service password. -/
theorem ping_auth_ping [CaseTables] (s : Sentinel) (c : Peer) (cmd₁ cmd₂ cmd₃ : String)
    (hpw : s.password ≠ "") (hc : c.authenticated = false) :
    let w₁ := cmdPing s c cmd₁ []
    let w₂ := cmdAuth w₁.1 w₁.2 cmd₂ [s.password]
    let w₃ := cmdPing w₂.1 w₂.2 cmd₃ []
    w₃.2.out = c.out ++ [Reply.error "NOAUTH Authentication required.", Reply.ok,
      Reply.inline "PONG"] ∧
    w₂.2.authenticated = true ∧
    (∀ (c' : Peer) (cmd p : String), c'.authenticated = false →
      (cmdAuth s c' cmd [p]).2.authenticated = true → p = s.password) := by
  intro w₁ w₂ w₃
  have a1 : w₁ = (s, (getCtx c).2.WriteError "NOAUTH Authentication required.") :=
    cmdPing_fail s c cmd₁ hpw hc
  have b1 : w₂ = (s, (setAuthenticated w₁.2).WriteOK) := by
    show cmdAuth w₁.1 w₁.2 cmd₂ [s.password] = _
    rw [a1]
    simp [cmdAuth, hpw]
  have b2 : w₂.2.authenticated = true := by
    rw [b1]; simp [(setAuthenticated_spec _).1]
  have b3 : w₂.2.out = c.out ++ [Reply.error "NOAUTH Authentication required.", Reply.ok] := by
    rw [b1, a1]
    simp [Peer.WriteOK, (setAuthenticated_spec _).2, Peer.WriteError, (getCtx_snd c).2]
  have c1 : w₃ = (s, w₂.2.WriteInline "PONG") := by
    show cmdPing w₂.1 w₂.2 cmd₃ [] = _
    rw [cmdPing_pass w₂.1 w₂.2 cmd₃ (Or.inr b2), b1]
  refine ⟨?_, b2, ?_⟩
  · rw [c1]
    simp [Peer.WriteInline, b3]
  · intro c' cmd p hc' h
    rw [cmdAuth_authenticated, hc'] at h
    simp at h
    exact h.2

/-- The witness of C8: a fresh connection of a service with the password
`secret`. -/
theorem ping_auth_ping_witness :
    letI := exampleTables
    (cmdPing (cmdAuth (cmdPing (exampleSentinel "secret") {} "PING" []).1
        (cmdPing (exampleSentinel "secret") {} "PING" []).2 "AUTH" ["secret"]).1
      (cmdAuth (cmdPing (exampleSentinel "secret") {} "PING" []).1
        (cmdPing (exampleSentinel "secret") {} "PING" []).2 "AUTH" ["secret"]).2
      "PING" []).2.out =
    [Reply.error "NOAUTH Authentication required.", Reply.ok, Reply.inline "PONG"] :=
  letI := exampleTables
  (ping_auth_ping (exampleSentinel "secret") {} "PING" "AUTH" "PING"
    (by decide) (by decide)).1

/-- C9. AUTH arity and the no-password case: with an argument count other than
1, `AUTH` replies only with the wrong-arity error (for `AUTH`: `… for 'auth'
command`); with exactly one argument `p`, any `p`, and an empty service
password it replies only with `ERR Client sent AUTH, but no password is set`.
In both cases the flag of the connection and the service are unchanged. -/
theorem cmdAuth_arity_no_password [CaseTables] (s : Sentinel) (c : Peer) (cmd p : String)
    (args : List String) :
    (args.length ≠ 1 →
      (cmdAuth s c cmd args).2.out = c.out ++ [Reply.error (errWrongNumber cmd)] ∧
      (cmdAuth s c cmd args).2.authenticated = c.authenticated ∧
      (cmdAuth s c cmd args).1 = s) ∧
    errWrongNumber "AUTH" = "ERR wrong number of arguments for 'auth' command" ∧
    (s.password = "" →
      (cmdAuth s c cmd [p]).2.out =
        c.out ++ [Reply.error "ERR Client sent AUTH, but no password is set"] ∧
      (cmdAuth s c cmd [p]).2.authenticated = c.authenticated ∧
      (cmdAuth s c cmd [p]).1 = s) := by
  refine ⟨?_, by rfl, ?_⟩
  · intro hlen
    have h : cmdAuth s c cmd args = (s, c.WriteError (errWrongNumber cmd)) := by
      match args, hlen with
      | [], _ => rfl
      | [_], hlen => simp at hlen
      | _ :: _ :: _, _ => rfl
    rw [h]
    exact ⟨rfl, by simp, rfl⟩
  · intro hpw
    have h : cmdAuth s c cmd [p] =
        (s, c.WriteError "ERR Client sent AUTH, but no password is set") := by
      simp [cmdAuth, hpw]
    rw [h]
    exact ⟨rfl, by simp, rfl⟩

/-- The witness of C9: `AUTH` without arguments, and `AUTH x` while no
password is set, on a fresh connection. -/
theorem cmdAuth_arity_no_password_witness :
    letI := exampleTables
    (cmdAuth (exampleSentinel "secret") {} "AUTH" []).2.out =
      [Reply.error "ERR wrong number of arguments for 'auth' command"] ∧
    (cmdAuth (exampleSentinel "") {} "AUTH" ["x"]).2.out =
      [Reply.error "ERR Client sent AUTH, but no password is set"] :=
  letI := exampleTables
  ⟨((cmdAuth_arity_no_password (exampleSentinel "secret") {} "AUTH" "x" []).1
      (by decide)).1.trans (by decide),
   ((cmdAuth_arity_no_password (exampleSentinel "") {} "AUTH" "x" []).2.2 (by decide)).1⟩

/-! ## Theorems: the flag of a connection is monotone -/

theorem writeFields_authenticated (fields : List (String × String)) :
    ∀ c : Peer, (writeFields c fields).authenticated = c.authenticated := by
  induction fields with
  | nil => intro c; rfl
  | cons f fs ih =>
    intro c
    show (writeFields ((c.WriteBulk f.1).WriteBulk f.2) fs).authenticated = _
    rw [ih]; simp

theorem writeSentinelFields_authenticated (info : SentinelInfo) (c : Peer) :
    (writeSentinelFields c info).authenticated = c.authenticated := by
  unfold writeSentinelFields
  generalize List.finRange SentinelInfo.NumField = l
  induction l generalizing c with
  | nil => rfl
  | cons i l ih => rw [List.foldl_cons, ih]; simp

/-- No function of the `cmdHandler` map changes the flag of the connection. -/
theorem callHandler_authenticated [CaseTables] (f : SubHandler) (s s' : Sentinel) (c c' : Peer)
    (cmd runID : String) (args : List String) (err : Option String)
    (h : callHandler f s c cmd args runID = some (s', c', err)) :
    c'.authenticated = c.authenticated := by
  cases f <;>
    simp only [callHandler, mastersCommand, getMasterAddrByNameCommand, slavesCommand,
      sentinelsCommand, Sentinel.SentinelInfo, initSentinelInfo] at h <;>
    repeat' split at h
  all_goals first
    | (simp at h; done)
    | (simp only [Option.some.injEq, Prod.mk.injEq] at h
       obtain ⟨_, hc, _⟩ := h
       subst hc
       simp [writeFields_authenticated, writeSentinelFields_authenticated])

theorem cmdsSentinel_authenticated [CaseTables] (s s' : Sentinel) (c c' : Peer)
    (cmd runID : String) (args : List String)
    (h : cmdsSentinel s c cmd args runID = some (s', c')) :
    c'.authenticated = c.authenticated := by
  unfold cmdsSentinel at h
  have h2 := (handleAuth_spec s c).2.1
  generalize handleAuth s c = r at h h2
  obtain ⟨ok, c1⟩ := r
  simp only at h h2
  repeat' split at h
  all_goals first
    | (simp at h; done)
    | (simp only [Option.some.injEq, Prod.mk.injEq] at h
       obtain ⟨hs, hc⟩ := h
       subst hc
       first
         | (rename_i hcall
            have := callHandler_authenticated _ _ _ _ _ _ _ _ _ hcall
            simp [this, h2])
         | simp_all)

/-- C10. No de-authentication: for every state of a service and a connection
and every step (PING, AUTH or SENTINEL with any arguments, or `RequireAuth`
with any password) that completes, a connection authenticated before the step
is authenticated after it; and the flag goes from false to true only in an
AUTH step whose single argument is the non-empty service password. -/
theorem authenticated_monotone [CaseTables] (st : Step) (s s' : Sentinel) (c c' : Peer)
    (h : st.exec (s, c) = some (s', c')) :
    (c.authenticated = true → c'.authenticated = true) ∧
    (c.authenticated = false → c'.authenticated = true →
      ∃ cmd p, st = Step.auth cmd [p] ∧ p = s.password ∧ s.password ≠ "") := by
  cases st with
  | ping cmd args =>
    have hc : c' = (cmdPing s c cmd args).2 := by
      simp only [Step.exec, Option.some.injEq] at h; rw [h]
    have hflag : c'.authenticated = c.authenticated := by
      rw [hc]
      match args with
      | [] =>
        by_cases hg : s.password = "" ∨ c.authenticated = true
        · rw [cmdPing_pass s c cmd hg]; simp
        · have ha : c.authenticated = false := by
            cases hb : c.authenticated
            · rfl
            · exact absurd (Or.inr hb) hg
          rw [cmdPing_fail s c cmd (fun hp => hg (Or.inl hp)) ha]
          simp [(getCtx_snd c).1]
      | a :: as => simp [cmdPing]
    rw [hflag]
    exact ⟨id, fun h1 h2 => by rw [h1] at h2; cases h2⟩
  | auth cmd args =>
    have hc : c' = (cmdAuth s c cmd args).2 := by
      simp only [Step.exec, Option.some.injEq] at h; rw [h]
    match args, hc with
    | [p], hc =>
      have hflag := cmdAuth_authenticated s c cmd p
      rw [← hc] at hflag
      rw [hflag]
      refine ⟨fun h1 => by simp [h1], fun h1 h2 => ⟨cmd, p, rfl, ?_⟩⟩
      rw [h1] at h2
      simp at h2
      exact ⟨h2.2, h2.1⟩
    | [], hc =>
      have hflag : c'.authenticated = c.authenticated := by rw [hc]; simp [cmdAuth]
      rw [hflag]
      exact ⟨id, fun h1 h2 => by rw [h1] at h2; cases h2⟩
    | _ :: _ :: _, hc =>
      have hflag : c'.authenticated = c.authenticated := by rw [hc]; simp [cmdAuth]
      rw [hflag]
      exact ⟨id, fun h1 h2 => by rw [h1] at h2; cases h2⟩
  | sentinel cmd args runID =>
    have hflag := cmdsSentinel_authenticated s s' c c' cmd runID args h
    rw [hflag]
    exact ⟨id, fun h1 h2 => by rw [h1] at h2; cases h2⟩
  | requireAuth pw =>
    have hc : c' = c := by
      simp only [Step.exec, Option.some.injEq, Prod.mk.injEq] at h; exact h.2.symm
    rw [hc]
    exact ⟨id, fun h1 h2 => by rw [h1] at h2; cases h2⟩

/-- The witness of C10: `AUTH secret` on a fresh connection of a service with
the password `secret`. -/
theorem authenticated_monotone_witness :
    letI := exampleTables
    (({} : Peer).authenticated = true →
      ({ Ctx := some { authenticated := true }, out := [Reply.ok] } : Peer).authenticated
        = true) ∧
    (({} : Peer).authenticated = false →
      ({ Ctx := some { authenticated := true }, out := [Reply.ok] } : Peer).authenticated
        = true →
      ∃ cmd p, Step.auth "AUTH" ["secret"] = Step.auth cmd [p] ∧
        p = (exampleSentinel "secret").password ∧ (exampleSentinel "secret").password ≠ "") :=
  letI := exampleTables
  authenticated_monotone (Step.auth "AUTH" ["secret"]) (exampleSentinel "secret")
    (exampleSentinel "secret") {} { Ctx := some { authenticated := true }, out := [Reply.ok] }
    (by decide)

/-! ## Theorems: the SENTINEL command -/

theorem writeFields_eq (fields : List (String × String)) :
    ∀ c : Peer, writeFields c fields = { c with out := c.out ++ fieldReplies fields } := by
  induction fields with
  | nil => intro c; simp [writeFields, fieldReplies]
  | cons f fs ih =>
    intro c
    obtain ⟨t, v⟩ := f
    show writeFields ((c.WriteBulk t).WriteBulk v) fs = _
    rw [ih]
    simp [Peer.WriteBulk, fieldReplies]

theorem writeSentinelFields_eq (info : SentinelInfo) (c : Peer) :
    writeSentinelFields c info = { c with out := c.out ++ info.flat.map Reply.bulk } := by
  unfold writeSentinelFields SentinelInfo.flat
  generalize List.finRange SentinelInfo.NumField = l
  induction l generalizing c with
  | nil => simp
  | cons i l ih =>
    rw [List.foldl_cons, ih]
    simp [Peer.WriteBulk]

theorem length_fieldReplies (fields : List (String × String)) :
    (fieldReplies fields).length = 2 * fields.length := by
  induction fields with
  | nil => rfl
  | cons f fs ih => obtain ⟨t, v⟩ := f; simp [fieldReplies, ih]; omega

theorem fieldReplies_not_error (fields : List (String × String)) :
    ∀ r ∈ fieldReplies fields, r.isError = false := by
  induction fields with
  | nil => simp [fieldReplies]
  | cons f fs ih =>
    obtain ⟨t, v⟩ := f
    intro r hr
    simp only [fieldReplies, List.mem_cons] at hr
    rcases hr with rfl | rfl | hr
    · rfl
    · rfl
    · exact ih r hr

theorem lookup_stdHandlers (x : String) :
    List.lookup x stdHandlers =
      if x = "MASTERS" then some SubHandler.mastersCommand
      else if x = "GET-MASTER-ADDR-BY-NAME" then some SubHandler.getMasterAddrByNameCommand
      else if x = "SLAVES" then some SubHandler.slavesCommand
      else if x = "SENTINELS" then some SubHandler.sentinelsCommand
      else none := by
  unfold stdHandlers
  by_cases h1 : x = "MASTERS"
  · subst h1; rfl
  by_cases h2 : x = "GET-MASTER-ADDR-BY-NAME"
  · subst h2; rfl
  by_cases h3 : x = "SLAVES"
  · subst h3; rfl
  by_cases h4 : x = "SENTINELS"
  · subst h4; rfl
  have e1 : (x == "MASTERS") = false := by simpa using h1
  have e2 : (x == "GET-MASTER-ADDR-BY-NAME") = false := by simpa using h2
  have e3 : (x == "SLAVES") = false := by simpa using h3
  have e4 : (x == "SENTINELS") = false := by simpa using h4
  simp [List.lookup, h1, h2, h3, h4, e1, e2, e3, e4]

/-- With the verb `SENTINEL`, at most two arguments and the gate passing, the
dispatcher reads `args[0]`, looks the upper-cased sub-verb up and calls what it
finds. -/
theorem cmdsSentinel_pass [CaseTables] (s : Sentinel) (c : Peer) (cmd runID : String) (args : List String)
    (hcmd : isSentinelCmd cmd = true) (hlen : args.length ≤ 2)
    (hgate : s.password = "" ∨ c.authenticated = true) :
    cmdsSentinel s c cmd args runID =
      match args[0]? with
      | none => none
      | some a0 =>
        match s.cmdHandler.lookup (strings.ToUpper a0) with
        | none => some (s, c.WriteError (msgInvalidSentinelCommand (strings.ToUpper a0)))
        | some cmdFn =>
          match callHandler cmdFn s c cmd args runID with
          | none => none
          | some (s, c, some err) => some (s, c.WriteError err)
          | some (s, c, none) => some (s, c) := by
  have hlen' : ¬ args.length > 2 := by omega
  unfold cmdsSentinel
  simp only [hcmd, hlen', handleAuth_pass s c hgate]
  simp

/-- With the verb `SENTINEL`, at most two arguments, a password set and the
connection not authenticated, the dispatcher writes `NOAUTH` and returns. -/
theorem cmdsSentinel_noauth [CaseTables] (s : Sentinel) (c : Peer) (cmd runID : String) (args : List String)
    (hcmd : isSentinelCmd cmd = true) (hlen : args.length ≤ 2)
    (hpw : s.password ≠ "") (hc : c.authenticated = false) :
    cmdsSentinel s c cmd args runID =
      some (s, (getCtx c).2.WriteError "NOAUTH Authentication required.") := by
  have hlen' : ¬ args.length > 2 := by omega
  unfold cmdsSentinel
  simp only [hcmd, hlen', handleAuth_fail s c hpw hc]
  simp

theorem mastersCommand_eq [CaseTables] (s : Sentinel) (c : Peer) (cmd a0 : String) (args : List String)
    (hcmd : isSentinelCmd cmd = true) (ha : args[0]? = some a0)
    (hsub : strings.ToUpper a0 = "MASTERS") :
    mastersCommand s c cmd args =
      some (s, { c with out := c.out ++
        (Reply.len 1 :: Reply.len 40 :: fieldReplies s.masterInfo.fields) }, none) := by
  unfold mastersCommand
  simp [hcmd, ha, hsub, writeFields_eq, Peer.WriteLen]

theorem slavesCommand_eq [CaseTables] (s : Sentinel) (c : Peer) (cmd a0 : String) (args : List String)
    (hcmd : isSentinelCmd cmd = true) (ha : args[0]? = some a0)
    (hsub : strings.ToUpper a0 = "SLAVES") :
    slavesCommand s c cmd args =
      some (s, { c with out := c.out ++
        (Reply.len 1 :: Reply.len 40 :: fieldReplies s.replicaInfo.fields) }, none) := by
  unfold slavesCommand
  simp [hcmd, ha, hsub, writeFields_eq, Peer.WriteLen]

theorem sentinelsCommand_eq [CaseTables] (s : Sentinel) (c : Peer) (cmd a0 runID : String)
    (args : List String)
    (hcmd : isSentinelCmd cmd = true) (ha : args[0]? = some a0)
    (hsub : strings.ToUpper a0 = "SENTINELS") :
    sentinelsCommand s c cmd args runID =
      some ((initSentinelInfo s GetOpts runID).1,
        { c with out := c.out ++ (Reply.len 1 :: Reply.len 14 ::
          (initSentinelInfo s GetOpts runID).2.flat.map Reply.bulk) }, none) := by
  unfold sentinelsCommand
  simp [hcmd, ha, hsub, writeSentinelFields_eq, Peer.WriteLen, Sentinel.SentinelInfo,
    SentinelInfo.NumField]

theorem getMasterAddrByNameCommand_eq [CaseTables] (s : Sentinel) (c : Peer) (cmd a0 a1 : String)
    (args : List String)
    (hcmd : isSentinelCmd cmd = true) (ha : args[0]? = some a0) (hb : args[1]? = some a1)
    (hsub : strings.ToUpper a0 = "GET-MASTER-ADDR-BY-NAME") :
    getMasterAddrByNameCommand s c cmd args =
      some (s, { c with out := c.out ++
        (if strings.ToUpper s.masterInfo.Name = strings.ToUpper a1 then
          [Reply.len 2, Reply.bulk s.master.Host, Reply.bulk s.master.Port]
        else [Reply.len (-1)]) }, none) := by
  unfold getMasterAddrByNameCommand
  by_cases h : strings.ToUpper s.masterInfo.Name = strings.ToUpper a1 <;>
    simp [hcmd, ha, hb, hsub, h, Peer.WriteLen, Peer.WriteBulk]

theorem cmdHandler_initSentinelCmdHandler (s : Sentinel) :
    (initSentinelCmdHandler s).cmdHandler = stdHandlers := rfl

theorem cmdsSentinel_masters [CaseTables] (s : Sentinel) (c : Peer) (cmd runID a0 : String)
    (rest : List String)
    (hcmd : isSentinelCmd cmd = true) (hlen : (a0 :: rest).length ≤ 2)
    (hgate : s.password = "" ∨ c.authenticated = true) (hmap : s.cmdHandler = stdHandlers)
    (hsub : strings.ToUpper a0 = "MASTERS") :
    cmdsSentinel s c cmd (a0 :: rest) runID =
      some (s, { c with out := c.out ++
        (Reply.len 1 :: Reply.len 40 :: fieldReplies s.masterInfo.fields) }) := by
  rw [cmdsSentinel_pass s c cmd runID _ hcmd hlen hgate]
  simp [hmap, lookup_stdHandlers, hsub, callHandler,
    mastersCommand_eq s c cmd a0 (a0 :: rest) hcmd (by simp) hsub]

theorem cmdsSentinel_slaves [CaseTables] (s : Sentinel) (c : Peer) (cmd runID a0 : String)
    (rest : List String)
    (hcmd : isSentinelCmd cmd = true) (hlen : (a0 :: rest).length ≤ 2)
    (hgate : s.password = "" ∨ c.authenticated = true) (hmap : s.cmdHandler = stdHandlers)
    (hsub : strings.ToUpper a0 = "SLAVES") :
    cmdsSentinel s c cmd (a0 :: rest) runID =
      some (s, { c with out := c.out ++
        (Reply.len 1 :: Reply.len 40 :: fieldReplies s.replicaInfo.fields) }) := by
  rw [cmdsSentinel_pass s c cmd runID _ hcmd hlen hgate]
  simp [hmap, lookup_stdHandlers, hsub, callHandler,
    slavesCommand_eq s c cmd a0 (a0 :: rest) hcmd (by simp) hsub]

theorem cmdsSentinel_sentinels [CaseTables] (s : Sentinel) (c : Peer) (cmd runID a0 : String)
    (rest : List String)
    (hcmd : isSentinelCmd cmd = true) (hlen : (a0 :: rest).length ≤ 2)
    (hgate : s.password = "" ∨ c.authenticated = true) (hmap : s.cmdHandler = stdHandlers)
    (hsub : strings.ToUpper a0 = "SENTINELS") :
    cmdsSentinel s c cmd (a0 :: rest) runID =
      some ((initSentinelInfo s GetOpts runID).1,
        { c with out := c.out ++ (Reply.len 1 :: Reply.len 14 ::
          (initSentinelInfo s GetOpts runID).2.flat.map Reply.bulk) }) := by
  rw [cmdsSentinel_pass s c cmd runID _ hcmd hlen hgate]
  simp [hmap, lookup_stdHandlers, hsub, callHandler,
    sentinelsCommand_eq s c cmd a0 runID (a0 :: rest) hcmd (by simp) hsub]

theorem cmdsSentinel_getMasterAddr [CaseTables] (s : Sentinel) (c : Peer) (cmd runID a0 a1 : String)
    (hcmd : isSentinelCmd cmd = true)
    (hgate : s.password = "" ∨ c.authenticated = true) (hmap : s.cmdHandler = stdHandlers)
    (hsub : strings.ToUpper a0 = "GET-MASTER-ADDR-BY-NAME") :
    cmdsSentinel s c cmd [a0, a1] runID =
      some (s, { c with out := c.out ++
        (if strings.ToUpper s.masterInfo.Name = strings.ToUpper a1 then
          [Reply.len 2, Reply.bulk s.master.Host, Reply.bulk s.master.Port]
        else [Reply.len (-1)]) }) := by
  rw [cmdsSentinel_pass s c cmd runID _ hcmd (by simp) hgate]
  simp [hmap, lookup_stdHandlers, hsub, callHandler,
    getMasterAddrByNameCommand_eq s c cmd a0 a1 [a0, a1] hcmd (by simp) (by simp) hsub]

theorem map_bulk_not_error (l : List String) :
    ∀ r ∈ l.map Reply.bulk, r.isError = false := by
  intro r hr
  obtain ⟨x, _, rfl⟩ := List.mem_map.mp hr
  rfl

theorem header_not_error (n m : Int) (l : List Reply)
    (h : ∀ r ∈ l, r.isError = false) :
    ∀ r ∈ Reply.len n :: Reply.len m :: l, r.isError = false := by
  intro r hr
  simp only [List.mem_cons] at hr
  rcases hr with rfl | rfl | hr
  · rfl
  · rfl
  · exact h r hr

/-- C11. Auth gate on SENTINEL: with a non-empty password, an unauthenticated
connection and at most two arguments, whatever the sub-verb, the SENTINEL
handler writes exactly one reply, the error `NOAUTH Authentication required.`,
calls no sub-verb handler and leaves the service as it was. After
`AUTH <password>` on that connection, `SENTINEL MASTERS`, `SENTINEL SLAVES`,
`SENTINEL SENTINELS <name>` and `SENTINEL GET-MASTER-ADDR-BY-NAME <name>`
complete and write no error reply. -/
theorem cmdsSentinel_auth_gate [CaseTables] (s : Sentinel) (c : Peer) (cmd runID : String)
    (args : List String)
    (hcmd : isSentinelCmd cmd = true) (hpw : s.password ≠ "")
    (hc : c.authenticated = false) (hlen : args.length ≤ 2)
    (hmap : s.cmdHandler = stdHandlers) :
    (∃ c', cmdsSentinel s c cmd args runID = some (s, c') ∧
      c'.out = c.out ++ [Reply.error "NOAUTH Authentication required."] ∧
      c'.authenticated = false) ∧
    (cmdAuth s c "AUTH" [s.password]).1 = s ∧
    (cmdAuth s c "AUTH" [s.password]).2.authenticated = true ∧
    ∀ name : String, ∀ args' ∈ [["MASTERS"], ["SLAVES"], ["SENTINELS", name],
        ["GET-MASTER-ADDR-BY-NAME", name]],
      ∃ s' c' new,
        cmdsSentinel s (cmdAuth s c "AUTH" [s.password]).2 cmd args' runID = some (s', c') ∧
        c'.out = (cmdAuth s c "AUTH" [s.password]).2.out ++ new ∧
        ∀ r ∈ new, r.isError = false := by
  have hauth : cmdAuth s c "AUTH" [s.password] = (s, (setAuthenticated c).WriteOK) := by
    simp [cmdAuth, hpw]
  have hflag : ((setAuthenticated c).WriteOK).authenticated = true := by
    simp [(setAuthenticated_spec c).1]
  refine ⟨⟨_, cmdsSentinel_noauth s c cmd runID args hcmd hlen hpw hc, ?_, ?_⟩, ?_, ?_, ?_⟩
  · simp [Peer.WriteError, (getCtx_snd c).2]
  · simp [(getCtx_snd c).1, hc]
  · rw [hauth]
  · rw [hauth]; exact hflag
  · intro name args' hargs
    rw [hauth]
    simp only [List.mem_cons, List.mem_singleton, List.not_mem_nil, or_false] at hargs
    rcases hargs with rfl | rfl | rfl | rfl
    · exact ⟨_, _, _, cmdsSentinel_masters s _ cmd runID "MASTERS" [] hcmd (by simp)
        (Or.inr hflag) hmap (by rfl), rfl,
        header_not_error _ _ _ (fieldReplies_not_error s.masterInfo.fields)⟩
    · exact ⟨_, _, _, cmdsSentinel_slaves s _ cmd runID "SLAVES" [] hcmd (by simp)
        (Or.inr hflag) hmap (by rfl), rfl,
        header_not_error _ _ _ (fieldReplies_not_error s.replicaInfo.fields)⟩
    · exact ⟨_, _, _, cmdsSentinel_sentinels s _ cmd runID "SENTINELS" [name] hcmd (by simp)
        (Or.inr hflag) hmap (by rfl), rfl,
        header_not_error _ _ _ (map_bulk_not_error _)⟩
    · refine ⟨_, _, _, cmdsSentinel_getMasterAddr s _ cmd runID "GET-MASTER-ADDR-BY-NAME"
        name hcmd (Or.inr hflag) hmap (by rfl), rfl, ?_⟩
      intro r hr
      split at hr <;> simp at hr <;> rcases hr with rfl | rfl | rfl <;> rfl

/-- The witness of C11: `SENTINEL MASTERS` on a fresh connection of a service
with the password `secret`. -/
theorem cmdsSentinel_auth_gate_witness :
    letI := exampleTables
    ∃ c', cmdsSentinel (exampleSentinel "secret") {} "SENTINEL" ["MASTERS"] "run-1" =
        some (exampleSentinel "secret", c') ∧
      c'.out = [Reply.error "NOAUTH Authentication required."] ∧
      c'.authenticated = false :=
  letI := exampleTables
  (cmdsSentinel_auth_gate (exampleSentinel "secret") {} "SENTINEL" "run-1" ["MASTERS"]
    (by decide) (by decide) (by decide) (by decide) (by decide)).1

/-- C12. GET-MASTER-ADDR-BY-NAME: with the gate passing and the arguments
`[sub, n]`, `sub` upper-casing to `GET-MASTER-ADDR-BY-NAME`, the reply is
exactly array length 2, bulk `master.Host()`, bulk `master.Port()` when
`ToUpper(n)` is `ToUpper` of the configured master name, and exactly the null
array (length -1) otherwise; nothing else is written and the service is
unchanged. `MYMASTER` matches `mymaster`. -/
theorem cmdsSentinel_getMasterAddrByName [CaseTables] (s : Sentinel) (c : Peer)
    (cmd runID sub n : String)
    (hcmd : isSentinelCmd cmd = true)
    (hgate : s.password = "" ∨ c.authenticated = true) (hmap : s.cmdHandler = stdHandlers)
    (hsub : strings.ToUpper sub = "GET-MASTER-ADDR-BY-NAME") :
    cmdsSentinel s c cmd [sub, n] runID =
      some (s, { c with out := c.out ++
        (if strings.ToUpper n = strings.ToUpper s.masterInfo.Name then
          [Reply.len 2, Reply.bulk s.master.Host, Reply.bulk s.master.Port]
        else [Reply.len (-1)]) }) ∧
    strings.ToUpper "MYMASTER" = strings.ToUpper "mymaster" := by
  refine ⟨?_, by rfl⟩
  rw [cmdsSentinel_getMasterAddr s c cmd runID sub n hcmd hgate hmap hsub]
  by_cases h : strings.ToUpper n = strings.ToUpper s.masterInfo.Name
  · simp [h]
  · have h' : ¬ strings.ToUpper s.masterInfo.Name = strings.ToUpper n := fun e => h e.symm
    simp [h, h']

/-- The witness of C12: `SENTINEL GET-MASTER-ADDR-BY-NAME MYMASTER` on a
service without password whose master is named `mymaster`. -/
theorem cmdsSentinel_getMasterAddrByName_witness :
    letI := exampleTables
    cmdsSentinel (exampleSentinel "") {} "SENTINEL" ["GET-MASTER-ADDR-BY-NAME", "MYMASTER"]
        "run-1" =
      some (exampleSentinel "",
        { out := [Reply.len 2, Reply.bulk "127.0.0.1", Reply.bulk "6379"] }) :=
  letI := exampleTables
  (cmdsSentinel_getMasterAddrByName (exampleSentinel "") {} "SENTINEL" "run-1"
    "GET-MASTER-ADDR-BY-NAME" "MYMASTER" (by decide) (by decide) (by decide)
    (by decide)).1.trans (by decide)

/-- C13. The SENTINELS handler writes array length 1, then the nested header
`NumField` = 14, then the 28 bulk strings tag₀, value₀, …, tag₁₃, value₁₃ of
the record: the nested header is the number of fields, half the number of
bulk strings that follow it. -/
theorem sentinelsCommand_header [CaseTables] (s : Sentinel) (c : Peer) (runID : String)
    (rest : List String) :
    ∃ (s' : Sentinel) (c' : Peer) (info : SentinelInfo),
      sentinelsCommand s c "SENTINEL" ("SENTINELS" :: rest) runID = some (s', c', none) ∧
      c'.out = c.out ++ (Reply.len 1 :: Reply.len 14 :: info.flat.map Reply.bulk) ∧
      (info.flat.map Reply.bulk).length = 28 ∧
      (14 : Int) ≠ ((info.flat.map Reply.bulk).length : Int) := by
  refine ⟨_, _, (initSentinelInfo s GetOpts runID).2,
    sentinelsCommand_eq s c "SENTINEL" "SENTINELS" runID _ (by rfl) (by simp) (by rfl),
    rfl, rfl, ?_⟩
  have : ((initSentinelInfo s GetOpts runID).2.flat.map Reply.bulk).length = 28 := rfl
  rw [this]
  decide

/-- The service `NewSentinel` returns, field by field. -/
theorem NewSentinel_eq (master : Miniredis) (o : Options) (mi : MasterInfo)
    (ri : ReplicaInfo) (runID : String) :
    NewSentinel master o mi ri runID =
      { srv := none
        port := 0
        password := ""
        masterInfo := mi
        master := master
        replicaInfo := ri
        replica := if o.replica ≠ none then o.replica else o.master
        sentinelInfo :=
          { Name := "sentinel-" ++ o.masterName
            IP := master.Host
            Port := strconv.Itoa 0
            RunID := runID
            Flags := "sentinel"
            LinkPendingCommands := "0"
            LinkRefCount := "1"
            LastPingSent := "0"
            LastOkPingReply := "0"
            LastPingReply := "0"
            DownAfterMilliseconds := "5000"
            LastHelloMessage := "0"
            VotedLeader := "?"
            VotedLeaderEpoch := "0" }
        cmdHandler := stdHandlers } := by
  unfold NewSentinel
  cases o.replica <;> rfl

/-- C14. On a service constructed with any options `o` (any master name),
started on the listener `srv`, `SENTINEL SENTINELS <name>` writes the pairs
name = `sentinel-mymaster`, ip = `master.Host()`, port = the decimal text of
the listener port (what `Port()` returns), runid, flags = `sentinel`, …: the
name is derived from the default master name, not from the one chosen at
construction (`sentinel-mymaster` is not `sentinel-other`). -/
theorem sentinels_name_default [CaseTables] (master : Miniredis) (o : Options) (mi : MasterInfo)
    (ri : ReplicaInfo) (srv : Server) (u₀ u₁ name : String) :
    ∃ s' c' more,
      cmdsSentinel (Start (NewSentinel master o mi ri u₀) (.ok srv)).1 {} "SENTINEL"
        ["SENTINELS", name] u₁ = some (s', c') ∧
      c'.out = [Reply.len 1, Reply.len 14,
        Reply.bulk "name", Reply.bulk "sentinel-mymaster",
        Reply.bulk "ip", Reply.bulk master.Host,
        Reply.bulk "port", Reply.bulk (strconv.Itoa srv.Port),
        Reply.bulk "runid", Reply.bulk u₁,
        Reply.bulk "flags", Reply.bulk "sentinel"] ++ more ∧
      (Start (NewSentinel master o mi ri u₀) (.ok srv)).1.Port = some (strconv.Itoa srv.Port) ∧
      (NewSentinel master { o with masterName := "other" } mi ri u₀).sentinelInfo.Name =
        "sentinel-other" ∧
      "sentinel-mymaster" ≠ "sentinel-other" := by
  rw [NewSentinel_eq]
  exact ⟨_, _, _, cmdsSentinel_sentinels _ _ "SENTINEL" u₁ "SENTINELS" [name] (by rfl)
    (by simp) (Or.inl rfl) rfl (by rfl), rfl, rfl, by rw [NewSentinel_eq]; rfl, by decide⟩

theorem errWrongNumber_ne_msgInvalid [CaseTables] (cmd x : String) :
    errWrongNumber cmd ≠ msgInvalidSentinelCommand x := by
  intro h
  have := congrArg String.data h
  simp [errWrongNumber, msgInvalidSentinelCommand, String.data_append] at this

theorem handlerOutcome_error (c : Peer) (x : String) :
    handlerOutcome c c (some (msgInvalidSentinelCommand x)) :=
  ⟨⟨[], by simp, by simp⟩, fun _ he => ⟨x, (Option.some.inj he).symm⟩⟩

theorem handlerOutcome_ok (c : Peer) (new : List Reply)
    (h : ∀ r ∈ new, r.isError = false) :
    handlerOutcome c { c with out := c.out ++ new } none :=
  ⟨⟨new, rfl, h⟩, fun _ he => by cases he⟩

theorem mastersCommand_out [CaseTables] (s s' : Sentinel) (c c' : Peer) (cmd : String)
    (args : List String) (err : Option String)
    (h : mastersCommand s c cmd args = some (s', c', err)) : handlerOutcome c c' err := by
  by_cases hcmd : isSentinelCmd cmd = true
  · cases ha : args[0]? with
    | none => simp [mastersCommand, hcmd, ha] at h
    | some a0 =>
      by_cases hsub : strings.ToUpper a0 = "MASTERS"
      · rw [mastersCommand_eq s c cmd a0 args hcmd ha hsub] at h
        simp only [Option.some.injEq, Prod.mk.injEq] at h
        obtain ⟨_, rfl, rfl⟩ := h
        exact handlerOutcome_ok c _ (header_not_error _ _ _ (fieldReplies_not_error _))
      · simp [mastersCommand, hcmd, ha, hsub] at h
        obtain ⟨_, rfl, rfl⟩ := h
        exact handlerOutcome_error c _
  · simp [mastersCommand, hcmd] at h
    obtain ⟨_, rfl, rfl⟩ := h
    exact handlerOutcome_error c _

theorem slavesCommand_out [CaseTables] (s s' : Sentinel) (c c' : Peer) (cmd : String)
    (args : List String) (err : Option String)
    (h : slavesCommand s c cmd args = some (s', c', err)) : handlerOutcome c c' err := by
  by_cases hcmd : isSentinelCmd cmd = true
  · cases ha : args[0]? with
    | none => simp [slavesCommand, hcmd, ha] at h
    | some a0 =>
      by_cases hsub : strings.ToUpper a0 = "SLAVES"
      · rw [slavesCommand_eq s c cmd a0 args hcmd ha hsub] at h
        simp only [Option.some.injEq, Prod.mk.injEq] at h
        obtain ⟨_, rfl, rfl⟩ := h
        exact handlerOutcome_ok c _ (header_not_error _ _ _ (fieldReplies_not_error _))
      · simp [slavesCommand, hcmd, ha, hsub] at h
        obtain ⟨_, rfl, rfl⟩ := h
        exact handlerOutcome_error c _
  · simp [slavesCommand, hcmd] at h
    obtain ⟨_, rfl, rfl⟩ := h
    exact handlerOutcome_error c _

theorem sentinelsCommand_out [CaseTables] (s s' : Sentinel) (c c' : Peer) (cmd runID : String)
    (args : List String) (err : Option String)
    (h : sentinelsCommand s c cmd args runID = some (s', c', err)) :
    handlerOutcome c c' err := by
  by_cases hcmd : isSentinelCmd cmd = true
  · cases ha : args[0]? with
    | none => simp [sentinelsCommand, hcmd, ha] at h
    | some a0 =>
      by_cases hsub : strings.ToUpper a0 = "SENTINELS"
      · rw [sentinelsCommand_eq s c cmd a0 runID args hcmd ha hsub] at h
        simp only [Option.some.injEq, Prod.mk.injEq] at h
        obtain ⟨_, rfl, rfl⟩ := h
        exact handlerOutcome_ok c _ (header_not_error _ _ _ (map_bulk_not_error _))
      · simp [sentinelsCommand, hcmd, ha, hsub] at h
        obtain ⟨_, rfl, rfl⟩ := h
        exact handlerOutcome_error c _
  · simp [sentinelsCommand, hcmd] at h
    obtain ⟨_, rfl, rfl⟩ := h
    exact handlerOutcome_error c _

theorem getMasterAddrByNameCommand_out [CaseTables] (s s' : Sentinel) (c c' : Peer) (cmd : String)
    (args : List String) (err : Option String)
    (h : getMasterAddrByNameCommand s c cmd args = some (s', c', err)) :
    handlerOutcome c c' err := by
  by_cases hcmd : isSentinelCmd cmd = true
  · cases ha : args[0]? with
    | none => simp [getMasterAddrByNameCommand, hcmd, ha] at h
    | some a0 =>
      by_cases hsub : strings.ToUpper a0 = "GET-MASTER-ADDR-BY-NAME"
      · cases hb : args[1]? with
        | none => simp [getMasterAddrByNameCommand, hcmd, ha, hb, hsub] at h
        | some a1 =>
          rw [getMasterAddrByNameCommand_eq s c cmd a0 a1 args hcmd ha hb hsub] at h
          simp only [Option.some.injEq, Prod.mk.injEq] at h
          obtain ⟨_, rfl, rfl⟩ := h
          apply handlerOutcome_ok
          intro r hr
          split at hr <;> simp at hr <;> rcases hr with rfl | rfl | rfl <;> rfl
      · simp [getMasterAddrByNameCommand, hcmd, ha, hsub] at h
        obtain ⟨_, rfl, rfl⟩ := h
        exact handlerOutcome_error c _
  · simp [getMasterAddrByNameCommand, hcmd] at h
    obtain ⟨_, rfl, rfl⟩ := h
    exact handlerOutcome_error c _

theorem callHandler_out [CaseTables] (f : SubHandler) (s s' : Sentinel) (c c' : Peer)
    (cmd runID : String) (args : List String) (err : Option String)
    (h : callHandler f s c cmd args runID = some (s', c', err)) :
    handlerOutcome c c' err := by
  cases f
  · exact mastersCommand_out s s' c c' cmd args err h
  · exact getMasterAddrByNameCommand_out s s' c c' cmd args err h
  · exact slavesCommand_out s s' c c' cmd args err h
  · exact sentinelsCommand_out s s' c c' cmd runID args err h

/-- With the verb `SENTINEL` and at most two arguments, whatever the
dispatcher appends to the replies, the wrong-arity error is not among it. -/
theorem cmdsSentinel_no_wrong_arity [CaseTables] (s s' : Sentinel) (c c' : Peer) (cmd runID : String)
    (args : List String) (hcmd : isSentinelCmd cmd = true) (hlen : args.length ≤ 2)
    (h : cmdsSentinel s c cmd args runID = some (s', c')) :
    ∃ new, c'.out = c.out ++ new ∧ Reply.error (errWrongNumber cmd) ∉ new := by
  by_cases hgate : s.password = "" ∨ c.authenticated = true
  · rw [cmdsSentinel_pass s c cmd runID args hcmd hlen hgate] at h
    cases ha : args[0]? with
    | none => simp [ha] at h
    | some a0 =>
      simp only [ha] at h
      cases hl : List.lookup (strings.ToUpper a0) s.cmdHandler with
      | none =>
        simp only [hl, Option.some.injEq, Prod.mk.injEq] at h
        obtain ⟨_, rfl⟩ := h
        refine ⟨[Reply.error (msgInvalidSentinelCommand (strings.ToUpper a0))], rfl, ?_⟩
        simp only [List.mem_singleton, Reply.error.injEq]
        exact errWrongNumber_ne_msgInvalid cmd _
      | some f =>
        simp only [hl] at h
        cases hr : callHandler f s c cmd args runID with
        | none => simp [hr] at h
        | some r =>
          obtain ⟨s₁, c₁, err⟩ := r
          obtain ⟨⟨new, hout, hne⟩, herr⟩ := callHandler_out f s s₁ c c₁ cmd runID args err hr
          cases err with
          | none =>
            simp only [hr, Option.some.injEq, Prod.mk.injEq] at h
            obtain ⟨_, rfl⟩ := h
            refine ⟨new, hout, fun hmem => ?_⟩
            have := hne _ hmem
            simp [Reply.isError] at this
          | some e =>
            simp only [hr, Option.some.injEq, Prod.mk.injEq] at h
            obtain ⟨_, rfl⟩ := h
            obtain ⟨x, rfl⟩ := herr e rfl
            refine ⟨new ++ [Reply.error (msgInvalidSentinelCommand x)], ?_, ?_⟩
            · simp [Peer.WriteError, hout]
            · intro hmem
              rcases List.mem_append.mp hmem with hm | hm
              · have := hne _ hm
                simp [Reply.isError] at this
              · simp only [List.mem_singleton, Reply.error.injEq] at hm
                exact errWrongNumber_ne_msgInvalid cmd x hm
  · have hpw : s.password ≠ "" := fun hp => hgate (Or.inl hp)
    have hc : c.authenticated = false := by
      cases hb : c.authenticated
      · rfl
      · exact absurd (Or.inr hb) hgate
    rw [cmdsSentinel_noauth s c cmd runID args hcmd hlen hpw hc] at h
    simp only [Option.some.injEq, Prod.mk.injEq] at h
    obtain ⟨_, rfl⟩ := h
    refine ⟨[Reply.error "NOAUTH Authentication required."], ?_, ?_⟩
    · simp [Peer.WriteError, (getCtx_snd c).2]
    · simp only [List.mem_singleton, Reply.error.injEq]
      exact errWrongNumber_ne_noauth cmd

/-- C15. SENTINEL wrong arity: with more than two arguments, whatever the
password and the state of the connection, the SENTINEL handler writes exactly
one reply, the wrong-arity error (for `SENTINEL`: `ERR wrong number of
arguments for 'sentinel' command`), and does nothing else: the service and the
context of the connection are as before. With one or two arguments the
wrong-arity error is never written. -/
theorem cmdsSentinel_wrong_arity [CaseTables] (s : Sentinel) (c : Peer) (cmd runID : String)
    (args : List String) (hcmd : isSentinelCmd cmd = true) (hlen : args.length > 2) :
    cmdsSentinel s c cmd args runID =
      some (s, { c with out := c.out ++ [Reply.error (errWrongNumber cmd)] }) ∧
    errWrongNumber "SENTINEL" = "ERR wrong number of arguments for 'sentinel' command" ∧
    (∀ (args' : List String) (s' : Sentinel) (c' : Peer),
      (args'.length = 1 ∨ args'.length = 2) →
      cmdsSentinel s c cmd args' runID = some (s', c') →
      ∃ new, c'.out = c.out ++ new ∧ Reply.error (errWrongNumber cmd) ∉ new) := by
  refine ⟨?_, by rfl, ?_⟩
  · simp [cmdsSentinel, hcmd, hlen, Peer.WriteError]
  · intro args' s' c' hl h
    exact cmdsSentinel_no_wrong_arity s s' c c' cmd runID args' hcmd (by omega) h

/-- The witness of C15: `SENTINEL a b c` on a fresh connection of a service
with the password `secret`. -/
theorem cmdsSentinel_wrong_arity_witness :
    letI := exampleTables
    cmdsSentinel (exampleSentinel "secret") {} "SENTINEL" ["a", "b", "c"] "run-1" =
      some (exampleSentinel "secret",
        { out := [Reply.error "ERR wrong number of arguments for 'sentinel' command"] }) :=
  letI := exampleTables
  (cmdsSentinel_wrong_arity (exampleSentinel "secret") {} "SENTINEL" "run-1" ["a", "b", "c"]
    (by decide) (by decide)).1.trans (by decide)

theorem cmdsSentinel_getMasterAddr_no_name [CaseTables] (s : Sentinel) (c : Peer)
    (cmd runID a0 : String)
    (hcmd : isSentinelCmd cmd = true)
    (hgate : s.password = "" ∨ c.authenticated = true) (hmap : s.cmdHandler = stdHandlers)
    (hsub : strings.ToUpper a0 = "GET-MASTER-ADDR-BY-NAME") :
    getMasterAddrByNameCommand s c cmd [a0] = none ∧
    cmdsSentinel s c cmd [a0] runID = none := by
  have hh : getMasterAddrByNameCommand s c cmd [a0] = none := by
    simp [getMasterAddrByNameCommand, hcmd, hsub]
  refine ⟨hh, ?_⟩
  rw [cmdsSentinel_pass s c cmd runID _ hcmd (by simp) hgate]
  simp [hmap, lookup_stdHandlers, hsub, callHandler, hh]

/-- C16. SENTINEL unknown sub-verb: with one or two arguments, the gate
passing and the handler map of `initSentinelCmdHandler`, a first argument whose
upper-casing is none of MASTERS, SLAVES, SENTINELS, GET-MASTER-ADDR-BY-NAME
gets exactly one reply, the error `ERR unknown command '<ToUpper(args[0])>'`.
When the upper-casing is one of the four (`masters` upper-cases to `MASTERS`)
the handler of that name runs: the dispatcher returns what `mastersCommand`,
`slavesCommand`, `sentinelsCommand` or `getMasterAddrByNameCommand` returns,
which is the reply of that command (for GET-MASTER-ADDR-BY-NAME without a name
the handler faults and nothing is written); every reply written then is a
length or a bulk string, no error. -/
theorem cmdsSentinel_subverb [CaseTables] (s : Sentinel) (c : Peer) (cmd runID a0 : String)
    (rest : List String)
    (hcmd : isSentinelCmd cmd = true) (hlen : (a0 :: rest).length ≤ 2)
    (hgate : s.password = "" ∨ c.authenticated = true) (hmap : s.cmdHandler = stdHandlers) :
    (strings.ToUpper a0 ∉ ["MASTERS", "SLAVES", "SENTINELS", "GET-MASTER-ADDR-BY-NAME"] →
      cmdsSentinel s c cmd (a0 :: rest) runID =
        some (s, { c with out := c.out ++
          [Reply.error ("ERR unknown command '" ++ strings.ToUpper a0 ++ "'")] })) ∧
    (strings.ToUpper a0 = "MASTERS" →
      cmdsSentinel s c cmd (a0 :: rest) runID =
        (mastersCommand s c cmd (a0 :: rest)).map (fun r => (r.1, r.2.1)) ∧
      cmdsSentinel s c cmd (a0 :: rest) runID =
        some (s, { c with out := c.out ++
          (Reply.len 1 :: Reply.len 40 :: fieldReplies s.masterInfo.fields) })) ∧
    (strings.ToUpper a0 = "SLAVES" →
      cmdsSentinel s c cmd (a0 :: rest) runID =
        (slavesCommand s c cmd (a0 :: rest)).map (fun r => (r.1, r.2.1)) ∧
      cmdsSentinel s c cmd (a0 :: rest) runID =
        some (s, { c with out := c.out ++
          (Reply.len 1 :: Reply.len 40 :: fieldReplies s.replicaInfo.fields) })) ∧
    (strings.ToUpper a0 = "SENTINELS" →
      cmdsSentinel s c cmd (a0 :: rest) runID =
        (sentinelsCommand s c cmd (a0 :: rest) runID).map (fun r => (r.1, r.2.1)) ∧
      cmdsSentinel s c cmd (a0 :: rest) runID =
        some ((initSentinelInfo s GetOpts runID).1,
          { c with out := c.out ++ (Reply.len 1 :: Reply.len 14 ::
            (initSentinelInfo s GetOpts runID).2.flat.map Reply.bulk) })) ∧
    (strings.ToUpper a0 = "GET-MASTER-ADDR-BY-NAME" →
      cmdsSentinel s c cmd (a0 :: rest) runID =
        (getMasterAddrByNameCommand s c cmd (a0 :: rest)).map (fun r => (r.1, r.2.1)) ∧
      (rest = [] → cmdsSentinel s c cmd (a0 :: rest) runID = none) ∧
      (∀ a1, rest = [a1] →
        cmdsSentinel s c cmd (a0 :: rest) runID =
          some (s, { c with out := c.out ++
            (if strings.ToUpper s.masterInfo.Name = strings.ToUpper a1 then
              [Reply.len 2, Reply.bulk s.master.Host, Reply.bulk s.master.Port]
            else [Reply.len (-1)]) }))) ∧
    (strings.ToUpper a0 ∈ ["MASTERS", "SLAVES", "SENTINELS", "GET-MASTER-ADDR-BY-NAME"] →
      ∀ s' c', cmdsSentinel s c cmd (a0 :: rest) runID = some (s', c') →
        ∃ new, c'.out = c.out ++ new ∧ ∀ r ∈ new, r.isError = false) ∧
    strings.ToUpper "masters" = "MASTERS" := by
  have hpass := cmdsSentinel_pass s c cmd runID (a0 :: rest) hcmd hlen hgate
  simp only [List.getElem?_cons_zero, hmap] at hpass
  have hM : strings.ToUpper a0 = "MASTERS" →
      cmdsSentinel s c cmd (a0 :: rest) runID =
        (mastersCommand s c cmd (a0 :: rest)).map (fun r => (r.1, r.2.1)) ∧
      cmdsSentinel s c cmd (a0 :: rest) runID =
        some (s, { c with out := c.out ++
          (Reply.len 1 :: Reply.len 40 :: fieldReplies s.masterInfo.fields) }) := by
    intro e
    have h1 := cmdsSentinel_masters s c cmd runID a0 rest hcmd hlen hgate hmap e
    exact ⟨by rw [h1, mastersCommand_eq s c cmd a0 _ hcmd (by simp) e]; rfl, h1⟩
  have hS : strings.ToUpper a0 = "SLAVES" →
      cmdsSentinel s c cmd (a0 :: rest) runID =
        (slavesCommand s c cmd (a0 :: rest)).map (fun r => (r.1, r.2.1)) ∧
      cmdsSentinel s c cmd (a0 :: rest) runID =
        some (s, { c with out := c.out ++
          (Reply.len 1 :: Reply.len 40 :: fieldReplies s.replicaInfo.fields) }) := by
    intro e
    have h1 := cmdsSentinel_slaves s c cmd runID a0 rest hcmd hlen hgate hmap e
    exact ⟨by rw [h1, slavesCommand_eq s c cmd a0 _ hcmd (by simp) e]; rfl, h1⟩
  have hN : strings.ToUpper a0 = "SENTINELS" →
      cmdsSentinel s c cmd (a0 :: rest) runID =
        (sentinelsCommand s c cmd (a0 :: rest) runID).map (fun r => (r.1, r.2.1)) ∧
      cmdsSentinel s c cmd (a0 :: rest) runID =
        some ((initSentinelInfo s GetOpts runID).1,
          { c with out := c.out ++ (Reply.len 1 :: Reply.len 14 ::
            (initSentinelInfo s GetOpts runID).2.flat.map Reply.bulk) }) := by
    intro e
    have h1 := cmdsSentinel_sentinels s c cmd runID a0 rest hcmd hlen hgate hmap e
    exact ⟨by rw [h1, sentinelsCommand_eq s c cmd a0 runID _ hcmd (by simp) e]; rfl, h1⟩
  have hG0 : strings.ToUpper a0 = "GET-MASTER-ADDR-BY-NAME" → rest = [] →
      getMasterAddrByNameCommand s c cmd (a0 :: rest) = none ∧
      cmdsSentinel s c cmd (a0 :: rest) runID = none := by
    intro e hr
    subst hr
    exact cmdsSentinel_getMasterAddr_no_name s c cmd runID a0 hcmd hgate hmap e
  have hG1 : strings.ToUpper a0 = "GET-MASTER-ADDR-BY-NAME" → ∀ a1, rest = [a1] →
      cmdsSentinel s c cmd (a0 :: rest) runID =
        some (s, { c with out := c.out ++
          (if strings.ToUpper s.masterInfo.Name = strings.ToUpper a1 then
            [Reply.len 2, Reply.bulk s.master.Host, Reply.bulk s.master.Port]
          else [Reply.len (-1)]) }) := by
    intro e a1 hr
    subst hr
    exact cmdsSentinel_getMasterAddr s c cmd runID a0 a1 hcmd hgate hmap e
  have hrest : rest = [] ∨ ∃ a1, rest = [a1] := by
    match rest, hlen with
    | [], _ => exact Or.inl rfl
    | [a1], _ => exact Or.inr ⟨a1, rfl⟩
    | _ :: _ :: _, hlen => simp at hlen
  refine ⟨?_, hM, hS, hN, ?_, ?_, rfl⟩
  · intro hnot
    simp only [List.mem_cons, List.mem_singleton, List.not_mem_nil, or_false, not_or] at hnot
    obtain ⟨h1, h3, h4, h2⟩ := hnot
    rw [hpass]
    simp [lookup_stdHandlers, h1, h2, h3, h4, Peer.WriteError, msgInvalidSentinelCommand]
  · intro e
    refine ⟨?_, fun hr => (hG0 e hr).2, hG1 e⟩
    rcases hrest with hr | ⟨a1, hr⟩
    · rw [(hG0 e hr).2, (hG0 e hr).1]; rfl
    · rw [hG1 e a1 hr]
      subst hr
      rw [getMasterAddrByNameCommand_eq s c cmd a0 a1 _ hcmd (by simp) (by simp) e]
      rfl
  · intro hmem s' c' h
    simp only [List.mem_cons, List.mem_singleton, List.not_mem_nil, or_false] at hmem
    rcases hmem with e | e | e | e
    · rw [(hM e).2] at h
      simp only [Option.some.injEq, Prod.mk.injEq] at h
      obtain ⟨_, rfl⟩ := h
      exact ⟨_, rfl, header_not_error _ _ _ (fieldReplies_not_error _)⟩
    · rw [(hS e).2] at h
      simp only [Option.some.injEq, Prod.mk.injEq] at h
      obtain ⟨_, rfl⟩ := h
      exact ⟨_, rfl, header_not_error _ _ _ (fieldReplies_not_error _)⟩
    · rw [(hN e).2] at h
      simp only [Option.some.injEq, Prod.mk.injEq] at h
      obtain ⟨_, rfl⟩ := h
      exact ⟨_, rfl, header_not_error _ _ _ (map_bulk_not_error _)⟩
    · rcases hrest with hr | ⟨a1, hr⟩
      · rw [(hG0 e hr).2] at h
        cases h
      · rw [hG1 e a1 hr] at h
        simp only [Option.some.injEq, Prod.mk.injEq] at h
        obtain ⟨_, rfl⟩ := h
        refine ⟨_, rfl, ?_⟩
        intro r hr'
        split at hr' <;> simp at hr' <;> rcases hr' with rfl | rfl | rfl <;> rfl

/-- The witness of C16: `SENTINEL FOO` on a service without password. -/
theorem cmdsSentinel_subverb_witness :
    letI := exampleTables
    cmdsSentinel (exampleSentinel "") {} "SENTINEL" ["foo"] "run-1" =
      some (exampleSentinel "", { out := [Reply.error "ERR unknown command 'FOO'"] }) :=
  letI := exampleTables
  ((cmdsSentinel_subverb (exampleSentinel "") {} "SENTINEL" "run-1" "foo" []
    (by decide) (by decide) (by decide) (by decide)).1 (by decide)).trans (by decide)

/-- C17. With the gate passing, `SENTINEL` without arguments faults at
`args[0]` in the dispatcher, and `SENTINEL GET-MASTER-ADDR-BY-NAME` without a
name faults at `args[1]` in `getMasterAddrByNameCommand`: no reply is written.
`SENTINEL SENTINELS` without a name completes. -/
theorem cmdsSentinel_short_args_fault [CaseTables] :
    cmdsSentinel (exampleSentinel "") {} "SENTINEL" [] "run-1" = none ∧
    cmdsSentinel (exampleSentinel "") {} "SENTINEL" ["GET-MASTER-ADDR-BY-NAME"] "run-1" =
      none ∧
    getMasterAddrByNameCommand (exampleSentinel "") {} "SENTINEL" ["GET-MASTER-ADDR-BY-NAME"] =
      none ∧
    (cmdsSentinel (exampleSentinel "") {} "SENTINEL" ["SENTINELS"] "run-1").isSome = true :=
  ⟨rfl, rfl, rfl, rfl⟩

/-- The counterexample of C18: on a service constructed with the run-id
`run-0` and then started on port 26379, the getter, even when it draws `run-0`
again, returns a record that is not the one computed at construction and
replaces the stored one; and two handlings of `SENTINEL SENTINELS`, drawing
`run-1` and `run-2`, leave different stored records. -/
theorem sentinelInfo_not_constructed_once :
    letI := exampleTables
    ¬ ((startedSentinel.SentinelInfo GetOpts "run-0").2 = startedSentinel.sentinelInfo ∧
       (startedSentinel.SentinelInfo GetOpts "run-0").1.sentinelInfo =
         startedSentinel.sentinelInfo) ∧
    (cmdsSentinel startedSentinel {} "SENTINEL" ["SENTINELS", "mymaster"] "run-1").map
        (fun r => r.1.sentinelInfo) ≠
      (cmdsSentinel startedSentinel {} "SENTINEL" ["SENTINELS", "mymaster"] "run-2").map
        (fun r => r.1.sentinelInfo) := by
  letI := exampleTables
  decide

/-- C18, amended. Handling `SENTINEL SENTINELS`, and calling the getter
`SentinelInfo()`, replace the stored sentinel record by a newly computed one
(name from the options of the call, ip from the master store, port from the
port of the service, the run-id drawn by the call) and leave everything else
in the service as it was; the record returned is the record stored; two
successive reads with the same options return records equal in every field
other than the run-id. -/
theorem sentinelInfo_recomputed [CaseTables] (s : Sentinel) (c : Peer) (o : Options)
    (r₁ r₂ : String) (rest : List String) :
    (s.SentinelInfo o r₁).1 = { s with sentinelInfo := (s.SentinelInfo o r₁).2 } ∧
    (s.SentinelInfo o r₁).2 =
      { Name := "sentinel-" ++ o.masterName
        IP := s.master.Host
        Port := strconv.Itoa s.port
        RunID := r₁
        Flags := "sentinel"
        LinkPendingCommands := "0"
        LinkRefCount := "1"
        LastPingSent := "0"
        LastOkPingReply := "0"
        LastPingReply := "0"
        DownAfterMilliseconds := "5000"
        LastHelloMessage := "0"
        VotedLeader := "?"
        VotedLeaderEpoch := "0" } ∧
    ((s.SentinelInfo o r₁).1.SentinelInfo o r₂).2 =
      { (s.SentinelInfo o r₁).2 with RunID := r₂ } ∧
    (∃ c', sentinelsCommand s c "SENTINEL" ("SENTINELS" :: rest) r₁ =
      some ((s.SentinelInfo GetOpts r₁).1, c', none)) := by
  exact ⟨rfl, rfl, rfl, _,
    sentinelsCommand_eq s c "SENTINEL" "SENTINELS" r₁ _ (by rfl) (by simp) (by rfl)⟩

/-- C19. SENTINEL MASTERS and SENTINEL SLAVES reply shape: when `args[0]`
upper-cases to MASTERS (resp. SLAVES) the handler returns no error and writes
exactly array length 1, array length 40 and then, for each field of the
MasterInfo (resp. ReplicaInfo) record in declaration order, the bulk string of
its tag and the bulk string of its value; with the gate passing the
dispatcher writes the same and nothing else. The declared length 40 is the
number of bulk strings written exactly when the record has 20 fields. -/
theorem masters_slaves_reply [CaseTables] (s : Sentinel) (c : Peer) (cmd runID a0 : String)
    (rest : List String)
    (hcmd : isSentinelCmd cmd = true) (hlen : (a0 :: rest).length ≤ 2)
    (hgate : s.password = "" ∨ c.authenticated = true) (hmap : s.cmdHandler = stdHandlers) :
    (strings.ToUpper a0 = "MASTERS" →
      mastersCommand s c cmd (a0 :: rest) =
        some (s, { c with out := c.out ++
          (Reply.len 1 :: Reply.len 40 :: fieldReplies s.masterInfo.fields) }, none) ∧
      cmdsSentinel s c cmd (a0 :: rest) runID =
        some (s, { c with out := c.out ++
          (Reply.len 1 :: Reply.len 40 :: fieldReplies s.masterInfo.fields) })) ∧
    (strings.ToUpper a0 = "SLAVES" →
      slavesCommand s c cmd (a0 :: rest) =
        some (s, { c with out := c.out ++
          (Reply.len 1 :: Reply.len 40 :: fieldReplies s.replicaInfo.fields) }, none) ∧
      cmdsSentinel s c cmd (a0 :: rest) runID =
        some (s, { c with out := c.out ++
          (Reply.len 1 :: Reply.len 40 :: fieldReplies s.replicaInfo.fields) })) ∧
    ((fieldReplies s.masterInfo.fields).length = 40 ↔ s.masterInfo.fields.length = 20) ∧
    ((fieldReplies s.replicaInfo.fields).length = 40 ↔ s.replicaInfo.fields.length = 20) := by
  refine ⟨fun h => ⟨mastersCommand_eq s c cmd a0 _ hcmd (by simp) h,
      cmdsSentinel_masters s c cmd runID a0 rest hcmd hlen hgate hmap h⟩,
    fun h => ⟨slavesCommand_eq s c cmd a0 _ hcmd (by simp) h,
      cmdsSentinel_slaves s c cmd runID a0 rest hcmd hlen hgate hmap h⟩, ?_, ?_⟩
  · rw [length_fieldReplies]; omega
  · rw [length_fieldReplies]; omega

/-- The witness of C19: `SENTINEL masters` on a service without password whose
MasterInfo view holds the one field name = mymaster. -/
theorem masters_slaves_reply_witness :
    letI := exampleTables
    cmdsSentinel (exampleSentinel "") {} "SENTINEL" ["masters"] "run-1" =
      some (exampleSentinel "",
        { out := [Reply.len 1, Reply.len 40, Reply.bulk "name", Reply.bulk "mymaster"] }) :=
  letI := exampleTables
  ((masters_slaves_reply (exampleSentinel "") {} "SENTINEL" "run-1" "masters" []
    (by decide) (by decide) (by decide) (by decide)).1 (by decide)).2.trans (by decide)

/-- C20. Close is idempotent and preserves state: closing a service whose
listener reference is already nil changes nothing, `Close (Close s) = Close s`,
and closing a running service sets only the listener reference to nil:
password, port, master and replica bindings, the three info records and the
handler map are as before. A Restart after Close that obtains the listener
`srv` yields the prior service with that listener and its port; one that
fails yields the closed service. -/
theorem Close_idempotent (s : Sentinel) (srv : Server) (err : String) :
    Close (Close s) = Close s ∧
    (s.srv = none → Close s = s) ∧
    Close s = { s with srv := none } ∧
    (Close s).password = s.password ∧ (Close s).port = s.port ∧
    (Close s).master = s.master ∧ (Close s).replica = s.replica ∧
    (Close s).masterInfo = s.masterInfo ∧ (Close s).replicaInfo = s.replicaInfo ∧
    (Close s).sentinelInfo = s.sentinelInfo ∧ (Close s).cmdHandler = s.cmdHandler ∧
    Restart (Close s) (.ok srv) = ({ s with srv := some srv, port := srv.Port }, none) ∧
    Restart (Close s) (.error err) = (Close s, some err) := by
  have h : Close s = { s with srv := none } := by
    unfold Close
    cases hs : s.srv with
    | none => obtain ⟨a, b, c, d, e, f, g, h, i⟩ := s; simp at hs; subst hs; rfl
    | some x => rfl
  refine ⟨?_, ?_, h, ?_, ?_, ?_, ?_, ?_, ?_, ?_, ?_, ?_, rfl⟩
  · rw [h]; rfl
  · intro hs; unfold Close; simp [hs]
  all_goals rw [h]
  all_goals rfl

/-! ## Theorems: the reads of the decoder -/

/-- The inner loop stores what it finds at the index `scanTagRead` names, and
faults exactly when that index is out of range. -/
theorem scanTag_eq_read (s : List String) (tag : String) (i : Fin SentinelInfo.NumField)
    (m : SentinelInfo) :
    ∀ (rest : List String) (si : Nat),
      scanTag s tag i m rest si =
        match scanTagRead s tag rest si with
        | none => some m
        | some idx => (s[idx]?).map (fun x => m.SetString i x) := by
  intro rest
  induction rest with
  | nil => intro si; rfl
  | cons sv rest ih =>
    intro si
    unfold scanTag scanTagRead
    by_cases hodd : si % 2 ≠ 0
    · simp only [if_pos hodd]; exact ih (si + 1)
    · by_cases hsv : sv = tag
      · by_cases hg : s.length ≥ si + 1
        · simp only [if_neg hodd, if_pos hsv, if_pos hg]
          cases s[si + 1]? <;> rfl
        · simp only [if_neg hodd, if_pos hsv, if_neg hg]
      · simp only [if_neg hodd, if_neg hsv]; exact ih (si + 1)

/-- Every index the inner loop reads is `sj + 1` for an even `sj` among the
indices it visits, and the guard bounds it by the length. -/
theorem scanTagRead_spec (s : List String) (tag : String) :
    ∀ (rest : List String) (si idx : Nat), scanTagRead s tag rest si = some idx →
      ∃ sj, idx = sj + 1 ∧ sj % 2 = 0 ∧ si ≤ sj ∧ sj < si + rest.length ∧
        idx ≤ s.length := by
  intro rest
  induction rest with
  | nil => intro si idx h; simp [scanTagRead] at h
  | cons sv rest ih =>
    intro si idx h
    unfold scanTagRead at h
    by_cases hodd : si % 2 ≠ 0
    · simp only [if_pos hodd] at h
      obtain ⟨sj, h1, h2, h3, h4, h5⟩ := ih (si + 1) idx h
      exact ⟨sj, h1, h2, by omega, by simp only [List.length_cons]; omega, h5⟩
    · by_cases hsv : sv = tag
      · by_cases hg : s.length ≥ si + 1
        · simp only [if_neg hodd, if_pos hsv, if_pos hg, Option.some.injEq] at h
          exact ⟨si, h.symm, by omega, le_refl _, by simp only [List.length_cons]; omega,
            by omega⟩
        · simp only [if_neg hodd, if_pos hsv, if_neg hg] at h
          cases h
      · simp only [if_neg hodd, if_neg hsv] at h
        obtain ⟨sj, h1, h2, h3, h4, h5⟩ := ih (si + 1) idx h
        exact ⟨sj, h1, h2, by omega, by simp only [List.length_cons]; omega, h5⟩

/-- C21. Decode indexing is always in range: `NewSentinelInfoFromStrings`
returns for every input, without an index fault; on odd length it returns
before any read, and on even length every read `s[si+1]` of the inner loop,
for every field, is at an index below `len(s)` and has an even `si`. The
guard `len(s) >= si+1` alone gives only `si+1 <= len(s)`: run on the one-element
sequence `name` the inner loop passes the guard, reads index 1 = `len(s)` and
faults. -/
theorem NewSentinelInfoFromStrings_reads_in_range (s : List String) :
    (∃ m err, NewSentinelInfoFromStrings s = some (m, err)) ∧
    (s.length % 2 = 1 →
      NewSentinelInfoFromStrings s = some ({}, some "[]strings not a modulus of 2")) ∧
    (s.length % 2 = 0 → ∀ (k : Fin SentinelInfo.NumField) (m : SentinelInfo) (idx : Nat),
      scanTagRead s (SentinelInfo.tag k) s 0 = some idx →
      idx < s.length ∧ (idx - 1) % 2 = 0 ∧ 1 ≤ idx ∧
      ∃ x, s[idx]? = some x ∧
        scanTag s (SentinelInfo.tag k) k m s 0 = some (m.SetString k x)) ∧
    (∀ (tag : String) (rest : List String) (si idx : Nat),
      scanTagRead s tag rest si = some idx → idx ≤ s.length) ∧
    (["name"].length ≥ 0 + 1 ∧
     scanTagRead ["name"] "name" ["name"] 0 = some 1 ∧
     ¬ (1 < ["name"].length) ∧
     scanTag ["name"] "name" ⟨0, by decide⟩ {} ["name"] 0 = none) := by
  refine ⟨?_, NewSentinelInfoFromStrings_odd s, ?_, ?_, by decide⟩
  · rcases Nat.mod_two_eq_zero_or_one s.length with h | h
    · exact ⟨_, _, NewSentinelInfoFromStrings_even s h⟩
    · exact ⟨_, _, NewSentinelInfoFromStrings_odd s h⟩
  · intro hs k m idx h
    obtain ⟨sj, h1, h2, _, h4, _⟩ := scanTagRead_spec s _ s 0 idx h
    have hlt : idx < s.length := by omega
    refine ⟨hlt, by omega, by omega, s[idx], List.getElem?_eq_getElem hlt, ?_⟩
    rw [scanTag_eq_read, h]
    simp [List.getElem?_eq_getElem hlt]
  · intro tag rest si idx h
    obtain ⟨_, _, _, _, _, h5⟩ := scanTagRead_spec s tag rest si idx h
    exact h5

/-- The witness of C21: on `ip, 1.2.3.4, name, x` the loop for the field
`name` reads index 3, below the length 4. -/
theorem NewSentinelInfoFromStrings_reads_in_range_witness :
    scanTagRead ["ip", "1.2.3.4", "name", "x"] "name" ["ip", "1.2.3.4", "name", "x"] 0 =
      some 3 ∧
    3 < ["ip", "1.2.3.4", "name", "x"].length :=
  ⟨by decide,
   ((NewSentinelInfoFromStrings_reads_in_range ["ip", "1.2.3.4", "name", "x"]).2.2.1
      (by decide) ⟨0, by decide⟩ {} 3 (by decide)).1⟩

end Minisentinel
